import Mathlib

/-!
# Verification of `py3-utils` (`src/configure.py`, `src/logger.py`)

Shallow embedding of the `Configure` class of `src/configure.py` and proofs of
the specification claims about it.

Modelling conventions (each definition cites the source lines it embeds):

* A `ConfigParser` store is an ordered association list of sections, each an
  ordered association list of `(key, value)` string pairs, mirroring Python
  dict insertion order.  `optionxform` (ASCII lower-casing of option names on
  every access) is omitted: every operation modelled here applies the same
  transform to the same key argument on both the write and the read path, so
  claims, none of which distinguishes letter case of a key, are unaffected.
* `BasicInterpolation`, the default value interpolation of `ConfigParser`,
  is modelled.  `before_set` runs on every `set` (including the re-inserts
  of `_save`): a value whose `%`-signs do not all belong to `%%` escapes or
  `%(name)s` references raises `ValueError`, before any section lookup.
  `before_get` runs on every `get` and on `items()`: `%%` collapses to `%`,
  `%(name)s` is replaced by the recursive interpolation of the named option,
  and `InterpolationSyntaxError` (stray `%`),
  `InterpolationMissingOptionError` (unknown reference) or, past
  `MAX_INTERPOLATION_DEPTH = 10`, `InterpolationDepthError` is raised; the
  call sites in configure.py catch only `NoSectionError`/`NoOptionError`,
  so these exceptions escape.  `ConfigParser.write` serializes raw values
  (`before_write` is the identity).  The `DEFAULT` section is not modelled
  (nothing in this program ever populates `ConfigParser._defaults`, which is
  separate from the ordinary sections): reference lookup consults only the
  section's own options.
* The file system is a map from path to an optional file.  A file is modelled
  post-parse, as a function from the text encoding used to read it to the
  decoded store (`EncFile`); the INI text serialization itself is abstracted,
  so a file written by `ConfigParser.write` from store `m` decodes to `m`
  under every encoding.  Malformed on-disk text (which would make
  `ConfigParser.read` raise `ParsingError`) is outside the model.
* `exit(1)` (`SystemExit`) and uncaught Python exceptions are distinct
  terminal outcomes of an operation; both carry the file system at the moment
  the process dies (process memory is lost, the disk persists).  An uncaught
  exception makes the CPython interpreter terminate with exit status 1.
* Logging (`src/logger.py`, `self.logger.*` calls) has no effect on any value
  or state and is dropped.
* `input()` reads from a list of pending stdin lines; an exhausted list (the
  non-interactive case: closed stdin) makes `input()` raise `EOFError`.
-/

/-- One section of a `ConfigParser` store: ordered `(key, value)` pairs. -/
abbrev CfgSection := List (String × String)

/-- A `ConfigParser` store: ordered `(section name, section)` pairs. -/
abbrev Store := List (String × CfgSection)

/-- An on-disk configuration file, modelled post-parse: the store it decodes
to as a function of the text encoding passed to `ConfigParser.read`. -/
abbrev EncFile := String → Store

/-- The file system: optional file contents per path. -/
abbrev FSMap := String → Option EncFile

/-- State of a `Configure` object (`configure.py` lines 17-24): the in-memory
parser `self._config`, the fixed `self.configure_path`, and the disk. -/
structure CState where
  mem : Store
  path : String
  fs : FSMap

/-- Result of running one Python method: normal return, process exit with a
status (`exit(1)`, configure.py lines 65 and 210), or an uncaught Python
exception (by class name).  The latter two carry the disk contents at death. -/
inductive PyResult (α : Type) where
  | ok : α → PyResult α
  | exited : Nat → FSMap → PyResult α
  | raised : String → FSMap → PyResult α

/-- True exactly on the uncaught-exception outcome. -/
def PyResult.isRaised : PyResult α → Bool
  | .raised _ _ => true
  | _ => false

/-- Exit status of the Python process after the operation: `none` while it is
still running; `exit(n)` gives status `n`; an uncaught exception makes the
CPython interpreter exit with status 1. -/
def PyResult.processExit : PyResult α → Option Nat
  | .ok _ => none
  | .exited n _ => some n
  | .raised _ _ => some 1

/-- `ConfigParser` section lookup by name (first match, Python dict has at
most one). -/
def storeFind? (m : Store) (s : String) : Option CfgSection :=
  (m.find? (fun p => p.1 == s)).map (·.2)

/-- `dict[key] = value` on a section: update in place if the key is present,
else append (Python dict insertion order). -/
def sectionSet (sec : CfgSection) (k v : String) : CfgSection :=
  if sec.any (fun p => p.1 == k) then
    sec.map (fun p => if p.1 = k then (p.1, v) else p)
  else sec ++ [(k, v)]

/-- `ConfigParser.remove_option`: delete the entry for the key. -/
def sectionDel (sec : CfgSection) (k : String) : CfgSection :=
  sec.filter (fun p => !(p.1 == k))

/-- The raw option lookup step of `ConfigParser.get(section, key)` (i.e.
`get` with `raw=True`): the stored value of the key before interpolation;
`none` stands for `NoSectionError`/`NoOptionError` being raised.  The full
interpolating `get` that configure.py calls (lines 99, 119, 145, 165, 185)
is `configGetInterp` below; it resolves to `none`/`some` on exactly the same
inputs, since interpolation runs only after the lookup succeeded. -/
def configGet (m : Store) (s k : String) : Option String :=
  match storeFind? m s with
  | none => none
  | some sec => (sec.find? (fun p => p.1 == k)).map (·.2)

/-- The `self._config.set` / `except NoSectionError: add_section; set` block of
`Configure.write` (configure.py lines 211-216). -/
def writeMem (m : Store) (s k v : String) : Store :=
  if m.any (fun p => p.1 == s) then
    m.map (fun p => if p.1 = s then (p.1, sectionSet p.2 k v) else p)
  else
    m ++ [(s, sectionSet [] k v)]

/-- `ConfigParser.read` merging one parsed file section into an existing
in-memory section: each option of the file is assigned in order, the file
winning on common keys. -/
def mergeSection (old new : CfgSection) : CfgSection :=
  new.foldl (fun acc kv => sectionSet acc kv.1 kv.2) old

/-- `ConfigParser.read` (configure.py line 61): merge a parsed file into the
existing parser.  Existing sections are updated option by option, new sections
are appended (their options assigned in order into a fresh dict). -/
def mergeStore (old new : Store) : Store :=
  new.foldl
    (fun acc sec =>
      if acc.any (fun p => p.1 == sec.1) then
        acc.map (fun p => if p.1 = sec.1 then (p.1, mergeSection p.2 sec.2) else p)
      else acc ++ [(sec.1, mergeSection [] sec.2)])
    old

/-- The `%\(([^)]+)\)s` reference pattern of `BasicInterpolation`
(`configparser._KEYCRE`), matched against the characters following a `%`:
an open parenthesis, a nonempty run of non-`)` characters (the referenced
option name), then `)s`.  Returns the name and the remaining input. -/
def tryKeyRef : List Char → Option (String × List Char)
  | '(' :: rest =>
    let name := rest.takeWhile (fun c => c != ')')
    if name.isEmpty then none
    else
      match rest.drop name.length with
      | ')' :: 's' :: rest₂ => some (String.mk name, rest₂)
      | _ => none
  | _ => none

/-- The scanning loop of `BasicInterpolation._interpolate_some` at one
recursion depth: `%%` emits a literal `%`; `%(name)s` looks the name up in
`lookup` (`InterpolationMissingOptionError` when absent) and, when the
substituted value contains `%`, interpolates it through `nest`; any other
`%` (including one ending the input or starting a malformed reference) is
`InterpolationSyntaxError`; with `deep` set (recursion depth past
`MAX_INTERPOLATION_DEPTH`) any `%` is `InterpolationDepthError`.  The `Nat`
fuel only makes the recursion structural: every step consumes at least one
character per unit, so with fuel ≥ input length (as every caller passes) the
`FuelError` branch is unreachable. -/
def interpLoop (lookup : String → Option String) (nest : String → Except String (List Char))
    (deep : Bool) : Nat → List Char → Except String (List Char)
  | _, [] => .ok []
  | 0, _ :: _ => .error "FuelError"
  | Nat.succ n, c :: rest =>
    if c = '%' then
      if deep then .error "InterpolationDepthError"
      else
        match rest with
        | '%' :: rest₂ => (interpLoop lookup nest deep n rest₂).map (fun l => '%' :: l)
        | _ =>
          match tryKeyRef rest with
          | none => .error "InterpolationSyntaxError"
          | some nr =>
            match lookup nr.1 with
            | none => .error "InterpolationMissingOptionError"
            | some vv =>
              if vv.data.contains '%' then
                match nest vv with
                | .error e => .error e
                | .ok sub => (interpLoop lookup nest deep n nr.2).map (fun l => sub ++ l)
              else (interpLoop lookup nest deep n nr.2).map (fun l => vv.data ++ l)
    else (interpLoop lookup nest deep n rest).map (fun l => c :: l)

/-- `BasicInterpolation._interpolate_some`, the nesting made structural: the
budget counts the remaining allowed recursion depths
(`MAX_INTERPOLATION_DEPTH = 10` at the top-level call, matching its initial
`depth` of 1); a substituted value containing `%` is interpolated at budget
one less, and at budget 0 (depth `> 10`) the depth check fires, as in
`configparser` for reference chains nested more than 10 deep.  The Python
code checks the depth once at function entry; here the check sits on the
first `%` instead, which is equivalent: a call at exceeded depth only ever
receives a value containing `%` (that containment is the recursion guard),
both raise the same `InterpolationDepthError`, and an exception discards any
partial output. -/
def interpSome (lookup : String → Option String) : Nat → List Char → Except String (List Char)
  | 0, l => interpLoop lookup (fun _ => .error "InterpolationDepthError") true l.length l
  | Nat.succ b, l => interpLoop lookup (fun v => interpSome lookup b v.data) false l.length l

/-- `BasicInterpolation.before_get`: the interpolated form of a stored
value, or the interpolation exception by class name. -/
def interpValue (lookup : String → Option String) (v : String) : Except String String :=
  match interpSome lookup 10 v.data with
  | .ok cs => .ok (String.mk cs)
  | .error e => .error e

/-- The variable map that interpolation resolves `%(name)s` references in:
the options of the section being read (`configparser._unify_values`; the
`DEFAULT` section and `vars` are empty in this program). -/
def sectionMap (sec : CfgSection) (n : String) : Option String :=
  (sec.find? (fun p => p.1 == n)).map (·.2)

/-- Python `value.replace('%%', '')`, the first step of
`BasicInterpolation.before_set`: remove non-overlapping `%%` pairs, scanning
left to right.  Fuel as in `interpLoop` (callers pass the input length,
which suffices: every step consumes at least one character per unit). -/
def removeDoublePct : Nat → List Char → List Char
  | _, [] => []
  | 0, l => l
  | Nat.succ n, c :: rest =>
    if c = '%' then
      match rest with
      | '%' :: rest₂ => removeDoublePct n rest₂
      | _ => c :: removeDoublePct n rest
    else c :: removeDoublePct n rest

/-- The rest of `BasicInterpolation.before_set` on the `%%`-stripped value:
`_KEYCRE.sub('', tmp_value)` followed by the check that no `%` remains.
Scanning left to right, every `%` must start a `%(name)s` reference, else
the value is rejected.  Fuel as in `interpLoop` (callers pass the input
length, which suffices). -/
def refsOk : Nat → List Char → Bool
  | _, [] => true
  | 0, _ :: _ => false
  | Nat.succ n, c :: rest =>
    if c = '%' then
      match tryKeyRef rest with
      | some nr => refsOk n nr.2
      | none => false
    else refsOk n rest

/-- `BasicInterpolation.before_set`, run by `ConfigParser.set` before any
section lookup or mutation: `true` iff every `%` of the value belongs to a
`%%` escape or a `%(name)s` reference; `false` stands for the `ValueError`
it raises.  (`set` skips the check for falsy values, but the empty string
passes it anyway.) -/
def beforeSetOk (v : String) : Bool :=
  let tmp := removeDoublePct v.data.length v.data
  refsOk tmp.length tmp

/-- `ConfigParser.get(section, key)` with `BasicInterpolation.before_get`,
as called by configure.py (lines 99, 119, 145, 165, 185): raw lookup, then
interpolation of the found value against the section's own options.
`.ok none` stands for the caught `NoSectionError`/`NoOptionError`;
`.error e` is an uncaught interpolation exception. -/
def configGetInterp (m : Store) (s k : String) : Except String (Option String) :=
  match storeFind? m s with
  | none => .ok none
  | some sec =>
    match (sec.find? (fun p => p.1 == k)).map (·.2) with
    | none => .ok none
    | some v =>
      match interpValue (sectionMap sec) v with
      | .ok w => .ok (some w)
      | .error e => .error e

/-- Interpolate every value of an option list against a fixed lookup map,
left to right, the first error propagating. -/
def interpList (lookup : String → Option String) : CfgSection → Except String CfgSection
  | [] => .ok []
  | kv :: t =>
    match interpValue lookup kv.2 with
    | .error e => .error e
    | .ok w =>
      match interpList lookup t with
      | .error e => .error e
      | .ok t₂ => .ok ((kv.1, w) :: t₂)

/-- `ConfigParser.items(section)` as materialized by the `sorted(...)` of
`Configure._save` (configure.py line 77): every option of the section with
its interpolated value, in dict order; the first interpolation error
propagates. -/
def interpItems (sec : CfgSection) : Except String CfgSection :=
  interpList (sectionMap sec) sec

/-- Python string `<`: lexicographic comparison of code points. -/
def pyStrLt : List Char → List Char → Bool
  | [], [] => false
  | [], _ :: _ => true
  | _ :: _, [] => false
  | a :: as, b :: bs =>
    if a.toNat < b.toNat then true
    else if b.toNat < a.toNat then false
    else pyStrLt as bs

/-- Python string `<=` on the keys of two pairs (`a <= b` iff `not (b < a)`),
the comparison `sorted` uses via `key=lambda x: x[0]`. -/
def pyKeyLE (a b : String × String) : Bool :=
  !(pyStrLt b.1.data a.1.data)

/-- Python `sorted(items, key=lambda x: x[0])` (configure.py line 77): the
stable sort of the pairs by key under lexicographic code-point order (which
is also Lean's `String` order, see `pyKeyLE_iff_le`).  Modelled by insertion
sort, which is stable and agrees with Python's stable sort for this total
preorder. -/
def pySortedByKey (sec : CfgSection) : CfgSection :=
  List.insertionSort (fun a b => pyKeyLE a b = true) sec

/-- The remove/re-insert loop of `Configure._save` (configure.py lines
78-79) on a section, given the sorted items it iterates: for each pair in
sorted key order, `remove_option` then `set` (the re-inserted key lands at
the end of the dict). -/
def sortFold (sec items : CfgSection) : CfgSection :=
  (pySortedByKey items).foldl (fun acc kv => sectionSet (sectionDel acc kv.1) kv.1 kv.2) sec

/-- The net effect of the `Configure._save` loop on a section whose values
all interpolate to themselves (`items(section)` then returns the section's
own pairs): re-insert them in sorted key order. -/
def sortSection (sec : CfgSection) : CfgSection := sortFold sec sec

/-- The normalization `Configure._save` applies to a store whose values all
interpolate to themselves and re-validate (the general case is
`sortStoreI`). -/
def sortStore (m : Store) : Store :=
  m.map (fun p => (p.1, sortSection p.2))

/-- The per-section body of `Configure._save` (configure.py lines 76-79) in
full: `sorted(self._config.items(section), ...)` is materialized before the
loop runs and interpolates every value of the section (`items` applies
`before_get`), and each re-`set` then runs `before_set` on the interpolated
value — so a stored `%%` interpolates to a bare `%`, which `before_set`
rejects with `ValueError`.  `.error` is the first exception of the loop;
checking all items at once is equivalent to Python's per-iteration check,
since `before_set` is a pure syntactic test, every rejection raises the same
`ValueError`, and the parser mutations of earlier iterations die with the
process. -/
def sortSectionI (sec : CfgSection) : Except String CfgSection :=
  match interpItems sec with
  | .error e => .error e
  | .ok itemsI =>
    if (pySortedByKey itemsI).all (fun kv => beforeSetOk kv.2) then
      .ok (sortFold sec itemsI)
    else .error "ValueError"

/-- The whole normalization loop of `Configure._save` over `sections()`,
section by section in store order, the first exception propagating. -/
def sortStoreI : Store → Except String Store
  | [] => .ok []
  | p :: t =>
    match sortSectionI p.2 with
    | .error e => .error e
    | .ok sec =>
      match sortStoreI t with
      | .error e => .error e
      | .ok t₂ => .ok ((p.1, sec) :: t₂)

/-- Overwrite one path of the file system. -/
def setFS (fs : FSMap) (p : String) (f : EncFile) : FSMap :=
  fun q => if q = p then some f else fs q

/-- Python `needle in hay` on strings: substring containment. -/
def pyIn (needle hay : String) : Bool :=
  (List.range (hay.data.length + 1)).any
    (fun i => decide ((hay.data.drop i).take needle.data.length = needle.data))

/-- `YES_NO_VALIDATOR` (configure.py line 9): one character, member of
`'YyNn'`. -/
def yesNoValidator (i : String) : Bool :=
  i.length == 1 && pyIn i "YyNn"

/-- `Configure._prompt` (configure.py lines 27-42): read stdin lines until a
blank line with a default set, or a validated line; an exhausted stdin means
`input()` raises `EOFError`, modelled by `none`. -/
def promptLoop (validator : String → Bool) (default : Option String) :
    List String → Option String
  | [] => none
  | i :: rest =>
    if i = "" then
      match default with
      | some d => some d
      | none => promptLoop validator default rest
    else if validator i then some i
    else promptLoop validator default rest

/-- Python `str` on an optional `int` as passed through `str(default_val)`
(configure.py line 176): `None` prints as `"None"`. -/
def pyStrOfOptInt : Option Int → String
  | none => "None"
  | some n => toString n

/-- Python `str` on a `bool`: `"True"` / `"False"`. -/
def pyStrOfBool : Bool → String
  | true => "True"
  | false => "False"

/-- Python `str` on an optional `bool` (configure.py line 130). -/
def pyStrOfOptBool : Option Bool → String
  | none => "None"
  | some b => pyStrOfBool b

/-- A Python `float` value, abstracted as the accepted literal text.  Python's
`float -> str` formatting is not reproduced; no claim inspects a formatted
float. -/
structure PyFloat where
  lit : String
deriving DecidableEq

/-- Python `str` on a `float`, abstracted (see `PyFloat`). -/
def pyFloatStr (f : PyFloat) : String := f.lit

/-- Python `str` on an optional `float` (configure.py line 156). -/
def pyStrOfOptFloat : Option PyFloat → String
  | none => "None"
  | some f => pyFloatStr f

/-- ASCII whitespace stripped by Python's `int`/`float` literal parsing. -/
def pyIsSpace (c : Char) : Bool :=
  c = ' ' || c = '\t' || c = '\n' || c = '\x0d' || c = '\x0b' || c = '\x0c'

/-- Strip leading and trailing whitespace from a character list. -/
def stripWS (l : List Char) : List Char :=
  ((l.dropWhile pyIsSpace).reverse.dropWhile pyIsSpace).reverse

/-- Digit run with optional single underscores between digits, continuing the
accumulator: grammar `(digit | "_" digit)*`. -/
def digRest (acc : Nat) : List Char → Option Nat
  | [] => some acc
  | '_' :: rest =>
    match rest with
    | c :: rest₂ => if c.isDigit then digRest (acc * 10 + (c.toNat - 48)) rest₂ else none
    | [] => none
  | c :: rest => if c.isDigit then digRest (acc * 10 + (c.toNat - 48)) rest else none

/-- Nonempty base-10 digit run (underscore separators allowed). -/
def parseDigits : List Char → Option Nat
  | c :: rest => if c.isDigit then digRest (c.toNat - 48) rest else none
  | [] => none

/-- Python `int(s, 10)` (configure.py line 179): optional whitespace, optional
sign, base-10 digits with underscore separators.  `none` stands for
`ValueError` (caught at the call site).  Non-ASCII decimal digits are not
modelled. -/
def pyIntParse (s : String) : Option Int :=
  match stripWS s.data with
  | '-' :: rest => (parseDigits rest).map (fun n => -(n : Int))
  | '+' :: rest => (parseDigits rest).map (fun n => (n : Int))
  | l => (parseDigits l).map (fun n => (n : Int))

/-- Case-insensitive ASCII comparison of a character list with a lowercase
word. -/
def matchWordCI : List Char → List Char → Option (List Char)
  | l, [] => some l
  | c :: l, w :: ws => if c.toLower = w then matchWordCI l ws else none
  | [], _ :: _ => none

/-- Consume `(digit | "_" digit)*` after at least one digit, returning the
remaining input.  A stray underscore is left in place (and then fails the
surrounding grammar, as in Python). -/
def floatDigRest : List Char → List Char
  | '_' :: c :: rest => if c.isDigit then floatDigRest rest else '_' :: c :: rest
  | c :: rest => if c.isDigit then floatDigRest rest else c :: rest
  | [] => []

/-- Exponent digits of a `float` literal: optional sign then a digit run
consuming the whole rest. -/
def expDigits (l : List Char) : Bool :=
  let l₂ := match l with
    | '+' :: r => r
    | '-' :: r => r
    | r => r
  match l₂ with
  | c :: rest => c.isDigit && (floatDigRest rest).isEmpty
  | [] => false

/-- Optional exponent part of a `float` literal, which must end the input. -/
def expPart : List Char → Bool
  | [] => true
  | 'e' :: rest => expDigits rest
  | 'E' :: rest => expDigits rest
  | _ => false

/-- After the integer digit run of a `float` literal: optional fraction, then
optional exponent. -/
def mantissaRest : List Char → Bool
  | '.' :: rest =>
    (match rest with
     | c :: rest₂ => if c.isDigit then expPart (floatDigRest rest₂) else expPart rest
     | [] => true)
  | rest => expPart rest

/-- Numeric (non-named) `float` literal body after the optional sign. -/
def floatNumber : List Char → Bool
  | '.' :: rest =>
    (match rest with
     | c :: rest₂ => c.isDigit && expPart (floatDigRest rest₂)
     | [] => false)
  | c :: rest => c.isDigit && mantissaRest (floatDigRest rest)
  | [] => false

/-- Python `float(s)` acceptance (configure.py line 159): optional whitespace
and sign, then `inf`/`infinity`/`nan` (case-insensitive) or a decimal literal
with optional fraction and exponent, underscores allowed between digits.
`false` stands for `ValueError` (caught at the call site). -/
def pyFloatParsable (s : String) : Bool :=
  let l := stripWS s.data
  let l₂ := match l with
    | '+' :: r => r
    | '-' :: r => r
    | r => r
  (match matchWordCI l₂ "infinity".data with | some [] => true | _ => false) ||
  (match matchWordCI l₂ "inf".data with | some [] => true | _ => false) ||
  (match matchWordCI l₂ "nan".data with | some [] => true | _ => false) ||
  floatNumber l₂

/-- Python `float(s)` (configure.py line 159), the parsed value abstracted as
its accepted literal (see `PyFloat`). -/
def pyFloatParse (s : String) : Option PyFloat :=
  if pyFloatParsable s then some ⟨s⟩ else none

/-- JSON whitespace (`json.decoder`: space, tab, newline, carriage return). -/
def jws (l : List Char) : List Char :=
  l.dropWhile (fun c => c = ' ' || c = '\t' || c = '\n' || c = '\x0d')

/-- `(0 | [1-9][0-9]*)` of the JSON number grammar. -/
def jsonUInt : List Char → Option (List Char)
  | '0' :: rest => some rest
  | c :: rest => if c.isDigit then some (rest.dropWhile Char.isDigit) else none
  | [] => none

/-- Optional `.[0-9]+` fraction of a JSON number (greedy regex behaviour:
matches only when complete, else left in place). -/
def jsonFrac : List Char → List Char
  | '.' :: c :: rest => if c.isDigit then rest.dropWhile Char.isDigit else '.' :: c :: rest
  | l => l

/-- Optional `[eE][+-]?[0-9]+` exponent of a JSON number (greedy regex
behaviour). -/
def jsonExp : List Char → List Char
  | 'e' :: '+' :: c :: r => if c.isDigit then r.dropWhile Char.isDigit else 'e' :: '+' :: c :: r
  | 'e' :: '-' :: c :: r => if c.isDigit then r.dropWhile Char.isDigit else 'e' :: '-' :: c :: r
  | 'e' :: c :: r => if c.isDigit then r.dropWhile Char.isDigit else 'e' :: c :: r
  | 'E' :: '+' :: c :: r => if c.isDigit then r.dropWhile Char.isDigit else 'E' :: '+' :: c :: r
  | 'E' :: '-' :: c :: r => if c.isDigit then r.dropWhile Char.isDigit else 'E' :: '-' :: c :: r
  | 'E' :: c :: r => if c.isDigit then r.dropWhile Char.isDigit else 'E' :: c :: r
  | l => l

/-- A full JSON number (`-? int frac? exp?`), returning the remainder. -/
def jsonNumber (l : List Char) : Option (List Char) :=
  match l with
  | '-' :: rest => (jsonUInt rest).map (fun r => jsonExp (jsonFrac r))
  | _ => (jsonUInt l).map (fun r => jsonExp (jsonFrac r))

/-- ASCII hexadecimal digit. -/
def isHexDig (c : Char) : Bool :=
  c.isDigit || ('a' ≤ c && c ≤ 'f') || ('A' ≤ c && c ≤ 'F')

/-- Body of a JSON string after the opening quote: unescaped characters above
`0x1f`, or the short escapes, or `\uXXXX`. -/
def jsonStringRest : List Char → Option (List Char)
  | [] => none
  | '"' :: rest => some rest
  | '\\' :: e :: rest =>
    if e = 'u' then
      match rest with
      | a :: b :: c :: d :: rest₂ =>
        if isHexDig a && isHexDig b && isHexDig c && isHexDig d then jsonStringRest rest₂
        else none
      | _ => none
    else if e = '"' || e = '\\' || e = '/' || e = 'b' || e = 'f' || e = 'n' || e = 'r' || e = 't'
    then jsonStringRest rest
    else none
  | c :: rest => if c.toNat < 32 then none else jsonStringRest rest

mutual

/-- One JSON value (with Python's default `NaN`/`Infinity` constants),
fuel-indexed; returns the unconsumed remainder. -/
def jsonVal : Nat → List Char → Option (List Char)
  | 0, _ => none
  | Nat.succ fuel, l =>
    match jws l with
    | '"' :: rest => jsonStringRest rest
    | '{' :: rest => jsonObjBody fuel rest
    | '[' :: rest => jsonArrBody fuel rest
    | 't' :: 'r' :: 'u' :: 'e' :: rest => some rest
    | 'f' :: 'a' :: 'l' :: 's' :: 'e' :: rest => some rest
    | 'n' :: 'u' :: 'l' :: 'l' :: rest => some rest
    | 'N' :: 'a' :: 'N' :: rest => some rest
    | 'I' :: 'n' :: 'f' :: 'i' :: 'n' :: 'i' :: 't' :: 'y' :: rest => some rest
    | '-' :: 'I' :: 'n' :: 'f' :: 'i' :: 'n' :: 'i' :: 't' :: 'y' :: rest => some rest
    | l₂ => jsonNumber l₂

/-- JSON array contents just after `[`. -/
def jsonArrBody : Nat → List Char → Option (List Char)
  | 0, _ => none
  | Nat.succ fuel, l =>
    match jws l with
    | ']' :: rest => some rest
    | l₂ =>
      match jsonVal fuel l₂ with
      | none => none
      | some r => jsonArrTail fuel r

/-- JSON array continuation after a parsed element. -/
def jsonArrTail : Nat → List Char → Option (List Char)
  | 0, _ => none
  | Nat.succ fuel, r =>
    match jws r with
    | ']' :: rest => some rest
    | ',' :: rest =>
      match jsonVal fuel rest with
      | none => none
      | some r₂ => jsonArrTail fuel r₂
    | _ => none

/-- JSON object contents just after `{`. -/
def jsonObjBody : Nat → List Char → Option (List Char)
  | 0, _ => none
  | Nat.succ fuel, l =>
    match jws l with
    | '}' :: rest => some rest
    | '"' :: rest =>
      match jsonStringRest rest with
      | none => none
      | some r => jsonPairRest fuel r
    | _ => none

/-- After an object key: `: value`, then the object continuation. -/
def jsonPairRest : Nat → List Char → Option (List Char)
  | 0, _ => none
  | Nat.succ fuel, r =>
    match jws r with
    | ':' :: rest =>
      match jsonVal fuel rest with
      | none => none
      | some r₂ => jsonObjTail fuel r₂
    | _ => none

/-- JSON object continuation after a parsed pair. -/
def jsonObjTail : Nat → List Char → Option (List Char)
  | 0, _ => none
  | Nat.succ fuel, r =>
    match jws r with
    | '}' :: rest => some rest
    | ',' :: rest =>
      match jws rest with
      | '"' :: r₂ =>
        match jsonStringRest r₂ with
        | none => none
        | some r₃ => jsonPairRest fuel r₃
      | _ => none
    | _ => none

end

/-- Acceptance of Python `json.loads` on the whole string: one value, possibly
surrounded by whitespace.  The fuel bound over-approximates the recursion
depth (every descent first consumes an input character). -/
def jsonWF (s : String) : Bool :=
  match jsonVal (3 * s.length + 3) s.data with
  | some r => (jws r).isEmpty
  | none => false

/-- Python `json.loads` (configure.py line 198): `none` stands for
`JSONDecodeError` (caught at the call site).  The parsed value is abstracted
as the source text; no claim inspects the decoded structure. -/
def pyJsonLoads (s : String) : Option String :=
  if jsonWF s then some s else none

/-- `Configure.export` (configure.py lines 44-52): refuse if the target exists
and `force` is not set (log an error, fall through to `return False`),
otherwise write the current in-memory store to the target and return `True`.
The written file decodes to the store as it is, with no sorting. -/
def Configure.«export» (st : CState) (path : String) (force : Bool) : PyResult (Bool × CState) :=
  if (st.fs path).isSome && !force then
    .ok (false, st)
  else
    .ok (true, { st with fs := setFS st.fs path (fun _ => st.mem) })

/-- `Configure._reload` (configure.py lines 54-70): if the file exists, merge
it into the parser, decoding with `encoding`; otherwise either `exit(1)`
(`force_quit`) or prompt to create it, a confirmed prompt exporting the (empty
at construction) store to the path. -/
def Configure._reload (st : CState) (encoding : String) (force_quit : Bool)
    (inputs : List String) : PyResult CState :=
  match st.fs st.path with
  | some f => .ok { st with mem := mergeStore st.mem (f encoding) }
  | none =>
    if force_quit then .exited 1 st.fs
    else
      match promptLoop yesNoValidator (some "y") inputs with
      | none => .raised "EOFError" st.fs
      | some ans =>
        if pyIn ans "Yy" then
          match Configure.«export» st st.path false with
          | .ok (_, st₂) => .ok st₂
          | .exited n fs => .exited n fs
          | .raised e fs => .raised e fs
        else .ok st

/-- `self._reload()` with default arguments, as invoked at the start of every
read and write (configure.py lines 93 and 207): encoding fixed to `'UTF-8'`,
`force_quit` true. -/
def Configure.reloadDefault (st : CState) : PyResult CState :=
  Configure._reload st "UTF-8" true []

/-- `Configure.__init__` (configure.py lines 17-24): fresh empty parser, then
`self._reload(encoding, force_quit=False)`. -/
def Configure.init (path encoding : String) (fs : FSMap) (inputs : List String) :
    PyResult CState :=
  Configure._reload { mem := [], path := path, fs := fs } encoding false inputs

/-- `Configure._save` (configure.py lines 72-82): re-sort every section's
keys through the interpolating remove/re-insert loop (lines 76-79), then
write the full store to `configure_path` (lines 81-82).  `.error` is an
uncaught `ValueError` or interpolation exception from the loop; it aborts
the save before the file is opened, so the disk is unchanged (the partially
mutated parser dies with the process). -/
def Configure._save (st : CState) : Except String CState :=
  match sortStoreI st.mem with
  | .error e => .error e
  | .ok sorted => .ok ⟨sorted, st.path, setFS st.fs st.path (fun _ => sorted)⟩

/-- `Configure._read_conf` (configure.py lines 84-110): reload, reject empty
section/key names with `None`, return the interpolated stored value if
present — the `try` at line 98 catches only `NoSectionError` and
`NoOptionError`, so an interpolation exception from `get` escapes —
otherwise the default unless it is required and absent, in which case
`None`. -/
def Configure._read_conf (st : CState) (s k : String) (default_val : Option String)
    (required : Bool) : PyResult (Option String × CState) :=
  match Configure.reloadDefault st with
  | .exited n fs => .exited n fs
  | .raised e fs => .raised e fs
  | .ok st₂ =>
    if s = "" ∨ k = "" then .ok (none, st₂)
    else
      match configGetInterp st₂.mem s k with
      | .error e => .raised e st₂.fs
      | .ok (some v) => .ok (some v, st₂)
      | .ok none =>
        if required ∧ default_val = none then .ok (none, st₂)
        else .ok (default_val, st₂)

/-- `Configure.write` (configure.py lines 203-219): reload, `exit(1)` on an
empty section or key name, then `self._config.set` — whose `before_set`
rejects a value with a stray `%` by raising `ValueError` before any section
lookup, and the `except` clause at line 213 catches only `NoSectionError`,
so that `ValueError` escapes — set the value (creating the section if
needed), and, when `store` is set, `_save`, whose exceptions also escape. -/
def Configure.write (st : CState) (s k v : String) (store : Bool) : PyResult (Unit × CState) :=
  match Configure.reloadDefault st with
  | .exited n fs => .exited n fs
  | .raised e fs => .raised e fs
  | .ok st₂ =>
    if s = "" ∨ k = "" then .exited 1 st₂.fs
    else if beforeSetOk v then
      let st₃ := { st₂ with mem := writeMem st₂.mem s k v }
      if store then
        match Configure._save st₃ with
        | .ok st₄ => .ok ((), st₄)
        | .error e => .raised e st₃.fs
      else .ok ((), st₃)
    else .raised "ValueError" st₂.fs


/-- The persist-back block repeated verbatim in `Configure.read`,
`read_bool`, `read_float` and `read_int` (configure.py lines 118-123,
144-148, 164-168, 184-188): a bare `self._config.get(section, key)` whose
`except` catches only `NoSectionError`/`NoOptionError` — an interpolation
exception escapes — and, if the key is absent and a non-`None` value was
resolved, persisting its string form via `write` (whose exceptions also
escape), then returning the resolved value. -/
def persistBack {α : Type} (st₂ : CState) (s k : String) (w : Option α)
    (ser : α → String) : PyResult (Option α × CState) :=
  match configGetInterp st₂.mem s k with
  | .error e => .raised e st₂.fs
  | .ok (some _) => .ok (w, st₂)
  | .ok none =>
    match w with
    | none => .ok (none, st₂)
    | some x =>
      match Configure.write st₂ s k (ser x) true with
      | .ok (_, st₃) => .ok (some x, st₃)
      | .exited n fs => .exited n fs
      | .raised e fs => .raised e fs

/-- `Configure.read` (configure.py lines 112-123): `_read_conf`, then the
persist-back block (in `read` the resolved string itself is written back). -/
def Configure.read (st : CState) (s k : String) (default_val : Option String)
    (required : Bool) : PyResult (Option String × CState) :=
  match Configure._read_conf st s k default_val required with
  | .exited n fs => .exited n fs
  | .raised e fs => .raised e fs
  | .ok (value, st₂) => persistBack st₂ s k value (fun v => v)

/-- `Configure.read_bool` (configure.py lines 125-149): `_read_conf` with
`str(default_val)`, accept case-insensitive `TRUE`/`FALSE`, fall back to the
default when it is a `bool`, and persist `str(value_b)` if the key was
absent.  `value.upper()` is modelled for ASCII. -/
def Configure.read_bool (st : CState) (s k : String) (default_val : Option Bool)
    (required : Bool) : PyResult (Option Bool × CState) :=
  match Configure._read_conf st s k (some (pyStrOfOptBool default_val)) required with
  | .exited n fs => .exited n fs
  | .raised e fs => .raised e fs
  | .ok (value, st₂) =>
    let value_b : Option Bool :=
      match value with
      | none => default_val
      | some sv =>
        let v := sv.toUpper
        if v = "TRUE" then some true
        else if v = "FALSE" then some false
        else default_val
    persistBack st₂ s k value_b pyStrOfBool

/-- `Configure.read_float` (configure.py lines 151-169): `_read_conf` with
`str(default_val)`, then `float(value)` — a `TypeError` escapes when `value`
is `None`; a `ValueError` falls back to the default when it is a `float` —
and persist `str(value_f)` if the key was absent. -/
def Configure.read_float (st : CState) (s k : String) (default_val : Option PyFloat)
    (required : Bool) : PyResult (Option PyFloat × CState) :=
  match Configure._read_conf st s k (some (pyStrOfOptFloat default_val)) required with
  | .exited n fs => .exited n fs
  | .raised e fs => .raised e fs
  | .ok (value, st₂) =>
    match value with
    | none => .raised "TypeError" st₂.fs
    | some sv =>
      let value_f : Option PyFloat :=
        match pyFloatParse sv with
        | some f => some f
        | none => default_val
      persistBack st₂ s k value_f pyFloatStr

/-- `Configure.read_int` (configure.py lines 171-189): `_read_conf` with
`str(default_val)`, then `int(value, 10)` — a `TypeError` escapes when
`value` is `None`; a `ValueError` falls back to the default when it is an
`int` — and persist `str(value_i)` if the key was absent. -/
def Configure.read_int (st : CState) (s k : String) (default_val : Option Int)
    (required : Bool) : PyResult (Option Int × CState) :=
  match Configure._read_conf st s k (some (pyStrOfOptInt default_val)) required with
  | .exited n fs => .exited n fs
  | .raised e fs => .raised e fs
  | .ok (value, st₂) =>
    match value with
    | none => .raised "TypeError" st₂.fs
    | some sv =>
      let value_i : Option Int :=
        match pyIntParse sv with
        | some n => some n
        | none => default_val
      persistBack st₂ s k value_i toString

/-- `Configure.read_json` (configure.py lines 191-201): `_read_conf` with no
default, then `json.loads(ret)` — a `TypeError` escapes when `ret` is `None`
(`json.loads` requires `str`); a `JSONDecodeError` is logged and resolved to
`None`.  No persist-back. -/
def Configure.read_json (st : CState) (s k : String) : PyResult (Option String × CState) :=
  match Configure._read_conf st s k none true with
  | .exited n fs => .exited n fs
  | .raised e fs => .raised e fs
  | .ok (ret, st₂) =>
    match ret with
    | none => .raised "TypeError" st₂.fs
    | some sv =>
      match pyJsonLoads sv with
      | some j => .ok (some j, st₂)
      | none => .ok (none, st₂)

/-- Well-formedness of a section: option keys are pairwise distinct (a Python
dict cannot hold a key twice). -/
def SectionWF (sec : CfgSection) : Prop := (sec.map Prod.fst).Nodup

/-- Well-formedness of a store: section names pairwise distinct and every
section well-formed. -/
def StoreWF (m : Store) : Prop :=
  (m.map Prod.fst).Nodup ∧ ∀ p ∈ m, SectionWF p.2

instance : DecidablePred SectionWF := fun sec =>
  inferInstanceAs (Decidable ((sec.map Prod.fst).Nodup))

instance : DecidablePred StoreWF := fun m =>
  inferInstanceAs (Decidable ((m.map Prod.fst).Nodup ∧ ∀ p ∈ m, SectionWF p.2))

/-- All values of a section free of `%`: interpolation then returns each of
them unchanged and `before_set` accepts them.  (Every value this program
itself serializes — raw strings without `%`, `str` of a bool/int/float — is
of this kind; `%` can enter a store only through the configuration file or
an explicit `write` of a `%%`/`%(name)s` value.) -/
def NoPctSection (sec : CfgSection) : Prop :=
  ∀ kv ∈ sec, ('%' : Char) ∉ kv.2.data

/-- All values of every section of a store free of `%`. -/
def NoPctStore (m : Store) : Prop := ∀ p ∈ m, NoPctSection p.2

instance : DecidablePred NoPctSection := fun sec =>
  inferInstanceAs (Decidable (∀ kv ∈ sec, ('%' : Char) ∉ kv.2.data))

instance : DecidablePred NoPctStore := fun m =>
  inferInstanceAs (Decidable (∀ p ∈ m, NoPctSection p.2))

/-- Observable outcome of one operation, the file-system payload of the
terminal constructors dropped: the returned value and parser content on a
normal return, or the exit status, or the exception class name.  Two
outcomes with equal views differ at most in the disk contents attached to a
death of the process, or in file contents at paths/encodings no operation
decodes. -/
inductive RView where
  | okv : Option String → Store → RView
  | exitedv : Nat → RView
  | raisedv : String → RView

/-- The view of a `read` outcome. -/
def readView : PyResult (Option String × CState) → RView
  | .ok (v, st) => .okv v st.mem
  | .exited n _ => .exitedv n
  | .raised e _ => .raisedv e

/-- The view of a `write` outcome (the value slot unused: `none`). -/
def writeView : PyResult (Unit × CState) → RView
  | .ok (_, st) => .okv none st.mem
  | .exited n _ => .exitedv n
  | .raised e _ => .raisedv e

/-- Concrete test fixture: the empty on-disk file (decodes to the empty store
under every encoding). -/
def fileEmpty : EncFile := fun _ => []

/-- Concrete test fixture: a file system holding only an empty `config.ini`. -/
def fsIni : FSMap := fun p => if p = "config.ini" then some fileEmpty else none

/-- Concrete test fixture: a fresh accessor on an empty `config.ini`. -/
def stIni : CState := ⟨[], "config.ini", fsIni⟩

/-- Concrete test fixture: an accessor holding one section `a`, over an empty
`config.ini`. -/
def stIniA : CState := ⟨[("a", [])], "config.ini", fsIni⟩

/-- Concrete test fixture: a file that decodes to the empty store under
`UTF-8` but to a different store under every other encoding. -/
def fileAltEnc : EncFile := fun e => if e = "UTF-8" then [] else [("x", [("k", "v")])]

/-- Concrete test fixture: an accessor whose parser holds a stored `%%`
value (reachable: parsing a file containing `x = %%` stores the value raw),
over an empty `config.ini`. -/
def stPct : CState := ⟨[("t", [("x", "%%")])], "config.ini", fsIni⟩

/-- Concrete test fixture: an accessor holding a section with keys out of
sorted order, over an empty `config.ini`. -/
def stSortEx : CState := ⟨[("sec", [("b", "2"), ("a", "1")])], "config.ini", fsIni⟩

theorem sectionDel_any (sec : CfgSection) (k : String) :
    (sectionDel sec k).any (fun p => p.1 == k) = false := by
  unfold sectionDel
  rw [List.any_eq_false]
  intro p hp
  have hmem := List.of_mem_filter hp
  simp only [Bool.not_eq_true', beq_eq_false_iff_ne, ne_eq] at hmem
  simp [hmem]

theorem sectionSet_del (sec : CfgSection) (k v : String) :
    sectionSet (sectionDel sec k) k v = sectionDel sec k ++ [(k, v)] := by
  unfold sectionSet
  simp [sectionDel_any]

theorem foldl_del_set (l acc : CfgSection) (hn : (l.map Prod.fst).Nodup) :
    l.foldl (fun acc kv => sectionSet (sectionDel acc kv.1) kv.1 kv.2) acc
      = acc.filter (fun p => !((l.map Prod.fst).contains p.1)) ++ l := by
  induction l generalizing acc with
  | nil => simp
  | cons kv t ih =>
    simp only [List.map_cons, List.nodup_cons] at hn
    simp only [List.foldl_cons]
    rw [ih _ hn.2, sectionSet_del]
    unfold sectionDel
    rw [List.filter_append, List.filter_filter]
    have hkv : (t.map Prod.fst).contains kv.1 = false := by
      simpa using hn.1
    have hsingle : List.filter (fun p => !(t.map Prod.fst).contains p.1) [(kv.1, kv.2)]
        = [(kv.1, kv.2)] := by
      simp only [List.filter_cons, hkv, Bool.not_false, if_pos, List.filter_nil]
    rw [hsingle]
    have hpred : ∀ p : String × String,
        ((!(t.map Prod.fst).contains p.1) && !(p.1 == kv.1))
          = !((kv.1 :: t.map Prod.fst).contains p.1) := by
      intro p
      rw [List.contains_cons]
      cases hc : (t.map Prod.fst).contains p.1 <;> cases hb : (p.1 == kv.1) <;> simp [hc, hb]
    simp only [hpred]
    rw [List.append_assoc, List.singleton_append, Prod.mk.eta, List.map_cons]

theorem pyStrLt_iff (x y : List Char) : pyStrLt x y = true ↔ x < y := by
  have hchar : ∀ c d : Char, c < d ↔ c.toNat < d.toNat := fun c d => Iff.rfl
  induction x generalizing y with
  | nil =>
    cases y with
    | nil =>
      simp only [pyStrLt]
      constructor
      · intro h
        exact absurd h (by simp)
      · intro h
        cases h
    | cons b bs =>
      simp only [pyStrLt]
      constructor
      · intro _
        exact List.nil_lt_cons b bs
      · intro _
        trivial
  | cons a as ih =>
    cases y with
    | nil =>
      simp only [pyStrLt]
      constructor
      · intro h
        exact absurd h (by simp)
      · intro h
        cases h
    | cons b bs =>
      simp only [pyStrLt]
      by_cases h1 : a.toNat < b.toNat
      · simp only [h1, if_pos]
        constructor
        · intro _
          exact List.Lex.rel ((hchar a b).mpr h1)
        · intro _
          trivial
      · by_cases h2 : b.toNat < a.toNat
        · simp only [h1, h2, ite_false, ite_true]
          constructor
          · intro h
            exact absurd h (by simp)
          · intro h
            cases h with
            | rel hr => exact absurd ((hchar a b).mp hr) h1
            | cons htl => exact absurd h2 (by simp)
        · have hnl1 : ¬ a < b := fun h => h1 ((hchar a b).mp h)
          have hnl2 : ¬ b < a := fun h => h2 ((hchar b a).mp h)
          have hab : a = b := le_antisymm (not_lt.mp hnl2) (not_lt.mp hnl1)
          subst hab
          simp only [h1, h2, ite_false]
          constructor
          · intro h
            exact List.Lex.cons ((ih bs).mp h)
          · intro h
            cases h with
            | rel hr => exact absurd ((hchar a a).mp hr) h1
            | cons htl => exact (ih bs).mpr htl

theorem pyKeyLE_iff_le (a b : String × String) : pyKeyLE a b = true ↔ a.1 ≤ b.1 := by
  unfold pyKeyLE
  rw [Bool.not_eq_true', Bool.eq_false_iff, ne_eq, pyStrLt_iff]
  constructor
  · intro h
    exact not_lt.mp (fun hlt => h (String.lt_iff_toList_lt.mp hlt))
  · intro h hlt
    exact absurd (String.lt_iff_toList_lt.mpr hlt) (not_lt.mpr h)

theorem pySorted_perm (sec : CfgSection) : (pySortedByKey sec).Perm sec :=
  List.perm_insertionSort _ sec

theorem pySorted_pairwise (sec : CfgSection) :
    (pySortedByKey sec).Pairwise (fun a b => a.1 ≤ b.1) := by
  unfold pySortedByKey
  haveI : IsTotal (String × String) (fun a b => pyKeyLE a b = true) :=
    ⟨fun a b => by
      rw [pyKeyLE_iff_le, pyKeyLE_iff_le]
      exact le_total a.1 b.1⟩
  haveI : IsTrans (String × String) (fun a b => pyKeyLE a b = true) :=
    ⟨fun a b c hab hbc => by
      rw [pyKeyLE_iff_le] at hab hbc ⊢
      exact le_trans hab hbc⟩
  have hp := List.sorted_insertionSort (fun a b => pyKeyLE a b = true) sec
  exact hp.imp fun h => (pyKeyLE_iff_le _ _).mp h

theorem removeDoublePct_clean :
    ∀ (n : Nat) (l : List Char), l.length ≤ n → ('%' : Char) ∉ l →
      removeDoublePct n l = l := by
  intro n
  induction n with
  | zero =>
    intro l _ _
    cases l with
    | nil => rfl
    | cons c rest => rfl
  | succ n ih =>
    intro l hl hcl
    cases l with
    | nil => rfl
    | cons c rest =>
      have hc : c ≠ '%' := fun hh => hcl (by rw [hh]; exact List.mem_cons_self _ _)
      have hr : ('%' : Char) ∉ rest := fun hm => hcl (List.mem_cons_of_mem _ hm)
      have hlen : rest.length ≤ n := by
        simp only [List.length_cons] at hl
        omega
      simp only [removeDoublePct, if_neg hc, ih rest hlen hr]

theorem refsOk_clean :
    ∀ (n : Nat) (l : List Char), l.length ≤ n → ('%' : Char) ∉ l → refsOk n l = true := by
  intro n
  induction n with
  | zero =>
    intro l hl _
    cases l with
    | nil => rfl
    | cons c rest => simp at hl
  | succ n ih =>
    intro l hl hcl
    cases l with
    | nil => rfl
    | cons c rest =>
      have hc : c ≠ '%' := fun hh => hcl (by rw [hh]; exact List.mem_cons_self _ _)
      have hr : ('%' : Char) ∉ rest := fun hm => hcl (List.mem_cons_of_mem _ hm)
      have hlen : rest.length ≤ n := by
        simp only [List.length_cons] at hl
        omega
      simp only [refsOk, if_neg hc]
      exact ih rest hlen hr

theorem beforeSetOk_clean {v : String} (h : ('%' : Char) ∉ v.data) :
    beforeSetOk v = true := by
  unfold beforeSetOk
  simp only [removeDoublePct_clean v.data.length v.data le_rfl h]
  exact refsOk_clean v.data.length v.data le_rfl h

theorem interpLoop_clean (lookup : String → Option String)
    (nest : String → Except String (List Char)) (deep : Bool) :
    ∀ (n : Nat) (l : List Char), l.length ≤ n → ('%' : Char) ∉ l →
      interpLoop lookup nest deep n l = .ok l := by
  intro n
  induction n with
  | zero =>
    intro l hl _
    cases l with
    | nil => rfl
    | cons c rest => simp at hl
  | succ n ih =>
    intro l hl hcl
    cases l with
    | nil => rfl
    | cons c rest =>
      have hc : c ≠ '%' := fun hh => hcl (by rw [hh]; exact List.mem_cons_self _ _)
      have hr : ('%' : Char) ∉ rest := fun hm => hcl (List.mem_cons_of_mem _ hm)
      have hlen : rest.length ≤ n := by
        simp only [List.length_cons] at hl
        omega
      simp only [interpLoop, if_neg hc, ih rest hlen hr, Except.map]

theorem interpSome_clean (lookup : String → Option String) (b : Nat) {l : List Char}
    (h : ('%' : Char) ∉ l) : interpSome lookup b l = .ok l := by
  cases b with
  | zero => exact interpLoop_clean lookup _ true l.length l le_rfl h
  | succ b => exact interpLoop_clean lookup _ false l.length l le_rfl h

theorem interpValue_clean (lookup : String → Option String) {v : String}
    (h : ('%' : Char) ∉ v.data) : interpValue lookup v = .ok v := by
  unfold interpValue
  rw [interpSome_clean lookup 10 h]

theorem storeFind?_mem {m : Store} {s : String} {sec : CfgSection}
    (h : storeFind? m s = some sec) : ∃ p ∈ m, p.2 = sec := by
  unfold storeFind? at h
  cases hf : m.find? (fun p => p.1 == s) with
  | none => rw [hf] at h; cases h
  | some q =>
    rw [hf] at h
    exact ⟨q, List.mem_of_find?_eq_some hf, Option.some.inj h⟩

theorem sectionFind?_val_mem {sec : CfgSection} {k v : String}
    (h : (sec.find? (fun p => p.1 == k)).map (·.2) = some v) : ∃ kv ∈ sec, kv.2 = v := by
  cases hf : sec.find? (fun p => p.1 == k) with
  | none => rw [hf] at h; cases h
  | some q =>
    rw [hf] at h
    exact ⟨q, List.mem_of_find?_eq_some hf, Option.some.inj h⟩

theorem configGetInterp_raw_none {m : Store} {s k : String}
    (h : configGet m s k = none) : configGetInterp m s k = Except.ok none := by
  unfold configGet at h
  unfold configGetInterp
  cases hf : storeFind? m s with
  | none => rfl
  | some sec =>
    rw [hf] at h
    dsimp only at h
    simp only [hf, h]

theorem configGetInterp_none_raw {m : Store} {s k : String}
    (h : configGetInterp m s k = Except.ok none) : configGet m s k = none := by
  unfold configGetInterp at h
  unfold configGet
  cases hf : storeFind? m s with
  | none => rfl
  | some sec =>
    rw [hf] at h
    dsimp only at h
    cases hv : (sec.find? (fun p => p.1 == k)).map (·.2) with
    | none => simp only [hf, hv]
    | some v =>
      rw [hv] at h
      dsimp only at h
      cases hi : interpValue (sectionMap sec) v with
      | ok w => rw [hi] at h; cases h
      | error e => rw [hi] at h; cases h

theorem configGet_clean_val {m : Store} (hm : NoPctStore m) {s k v : String}
    (h : configGet m s k = some v) : ('%' : Char) ∉ v.data := by
  unfold configGet at h
  cases hf : storeFind? m s with
  | none => rw [hf] at h; cases h
  | some sec =>
    rw [hf] at h
    obtain ⟨p, hp, hps⟩ := storeFind?_mem hf
    obtain ⟨kv, hkv, hkvv⟩ := sectionFind?_val_mem h
    have hmem := hm p hp kv (hps ▸ hkv)
    rwa [hkvv] at hmem

theorem configGetInterp_clean {m : Store} (hm : NoPctStore m) (s k : String) :
    configGetInterp m s k = Except.ok (configGet m s k) := by
  unfold configGetInterp configGet
  cases hf : storeFind? m s with
  | none => rfl
  | some sec =>
    cases hv : (sec.find? (fun p => p.1 == k)).map (·.2) with
    | none => simp only [hf, hv]
    | some v =>
      obtain ⟨p, hp, hps⟩ := storeFind?_mem hf
      obtain ⟨kv, hkv, hkvv⟩ := sectionFind?_val_mem hv
      have hvp : ('%' : Char) ∉ v.data := by
        have hmem := hm p hp kv (hps ▸ hkv)
        rwa [hkvv] at hmem
      simp only [hf, hv, interpValue_clean (sectionMap sec) hvp]

theorem interpList_clean (lookup : String → Option String) :
    ∀ l : CfgSection, (∀ kv ∈ l, ('%' : Char) ∉ kv.2.data) →
      interpList lookup l = Except.ok l := by
  intro l
  induction l with
  | nil => intro _; rfl
  | cons kv t ih =>
    intro h
    have hv := h kv (List.mem_cons_self kv t)
    simp only [interpList, interpValue_clean lookup hv,
      ih fun x hx => h x (List.mem_cons_of_mem _ hx)]

theorem interpList_keys (lookup : String → Option String) :
    ∀ (l l₂ : CfgSection), interpList lookup l = Except.ok l₂ →
      l₂.map Prod.fst = l.map Prod.fst := by
  intro l
  induction l with
  | nil =>
    intro l₂ h
    obtain rfl : ([] : CfgSection) = l₂ := Except.ok.inj h
    rfl
  | cons kv t ih =>
    intro l₂ h
    unfold interpList at h
    cases hi : interpValue lookup kv.2 with
    | error e => rw [hi] at h; cases h
    | ok w =>
      rw [hi] at h
      dsimp only at h
      cases ht : interpList lookup t with
      | error e => rw [ht] at h; cases h
      | ok t₂ =>
        rw [ht] at h
        dsimp only at h
        obtain rfl : ((kv.1, w) :: t₂ : CfgSection) = l₂ := Except.ok.inj h
        simp only [List.map_cons, ih t₂ ht]

theorem interpItems_clean {sec : CfgSection} (h : NoPctSection sec) :
    interpItems sec = Except.ok sec :=
  interpList_clean (sectionMap sec) sec h

theorem sortFold_eq {sec items : CfgSection}
    (hkeys : items.map Prod.fst = sec.map Prod.fst) (h : SectionWF sec) :
    sortFold sec items = pySortedByKey items := by
  unfold sortFold
  have htn : (items.map Prod.fst).Nodup := by rw [hkeys]; exact h
  have hperm := pySorted_perm items
  have hn : ((pySortedByKey items).map Prod.fst).Nodup := ((hperm.map Prod.fst).symm).nodup htn
  rw [foldl_del_set _ _ hn]
  have hnil : sec.filter (fun p => !((pySortedByKey items).map Prod.fst).contains p.1) = [] := by
    rw [List.filter_eq_nil_iff]
    intro p hp
    have hmem : p.1 ∈ (pySortedByKey items).map Prod.fst := by
      apply ((hperm.map Prod.fst).mem_iff).mpr
      rw [hkeys]
      exact List.mem_map_of_mem Prod.fst hp
    simp [hmem]
  rw [hnil, List.nil_append]

theorem sortSectionI_clean {sec : CfgSection} (h : NoPctSection sec) :
    sortSectionI sec = Except.ok (sortSection sec) := by
  unfold sortSectionI
  rw [interpItems_clean h]
  have hall : (pySortedByKey sec).all (fun kv => beforeSetOk kv.2) = true := by
    rw [List.all_eq_true]
    intro kv hkv
    exact beforeSetOk_clean (h kv ((pySorted_perm sec).subset hkv))
  simp only [hall, if_true]
  rfl

theorem sortSectionI_spec {sec sec' : CfgSection} (hwf : SectionWF sec)
    (h : sortSectionI sec = Except.ok sec') :
    ∃ itemsI : CfgSection, interpItems sec = Except.ok itemsI ∧ sec'.Perm itemsI ∧
      sec'.Pairwise (fun a b => a.1 ≤ b.1) := by
  unfold sortSectionI at h
  cases hi : interpItems sec with
  | error e => rw [hi] at h; cases h
  | ok itemsI =>
    rw [hi] at h
    dsimp only at h
    by_cases hall : (pySortedByKey itemsI).all (fun kv => beforeSetOk kv.2) = true
    · rw [if_pos hall] at h
      have hkeys : itemsI.map Prod.fst = sec.map Prod.fst := interpList_keys _ sec itemsI hi
      have heq := sortFold_eq hkeys hwf
      obtain rfl : sortFold sec itemsI = sec' := Except.ok.inj h
      rw [heq]
      exact ⟨itemsI, rfl, pySorted_perm itemsI, pySorted_pairwise itemsI⟩
    · rw [if_neg hall] at h
      cases h

theorem sortStoreI_clean : ∀ {m : Store}, NoPctStore m → sortStoreI m = Except.ok (sortStore m) := by
  intro m
  induction m with
  | nil => intro _; rfl
  | cons p t ih =>
    intro h
    have hp := sortSectionI_clean (h p (List.mem_cons_self p t))
    have ht := ih fun x hx => h x (List.mem_cons_of_mem _ hx)
    simp only [sortStoreI, hp, ht]
    rfl

theorem sortStoreI_forall₂ :
    ∀ (m m' : Store), StoreWF m → sortStoreI m = Except.ok m' →
      List.Forall₂ (fun p q : String × CfgSection =>
          p.1 = q.1 ∧ ∃ itemsI : CfgSection, interpItems p.2 = Except.ok itemsI ∧
            q.2.Perm itemsI ∧ q.2.Pairwise (fun a b => a.1 ≤ b.1)) m m' := by
  intro m
  induction m with
  | nil =>
    intro m' _ h
    obtain rfl : ([] : Store) = m' := Except.ok.inj h
    exact List.Forall₂.nil
  | cons p t ih =>
    intro m' hwf h
    unfold sortStoreI at h
    cases hp : sortSectionI p.2 with
    | error e => rw [hp] at h; cases h
    | ok sec =>
      rw [hp] at h
      dsimp only at h
      cases ht : sortStoreI t with
      | error e => rw [ht] at h; cases h
      | ok t₂ =>
        rw [ht] at h
        dsimp only at h
        obtain rfl : ((p.1, sec) :: t₂ : Store) = m' := Except.ok.inj h
        have hwfp : SectionWF p.2 := hwf.2 p (List.mem_cons_self p t)
        obtain ⟨itemsI, hii, hperm, hpair⟩ := sortSectionI_spec hwfp hp
        have hwft : StoreWF t := by
          constructor
          · have := hwf.1
            simp only [List.map_cons, List.nodup_cons] at this
            exact this.2
          · intro q hq
            exact hwf.2 q (List.mem_cons_of_mem _ hq)
        exact List.Forall₂.cons ⟨rfl, itemsI, hii, hperm, hpair⟩ (ih t₂ hwft ht)

theorem sectionSet_nopct {sec : CfgSection} (h : NoPctSection sec) {v : String}
    (hv : ('%' : Char) ∉ v.data) (k : String) : NoPctSection (sectionSet sec k v) := by
  unfold sectionSet
  split
  · intro kv hkv
    rcases List.mem_map.mp hkv with ⟨p, hp, rfl⟩
    by_cases hpk : p.1 = k
    · simp only [hpk, if_pos]
      exact hv
    · simp only [if_neg hpk]
      exact h p hp
  · intro kv hkv
    rcases List.mem_append.mp hkv with hkv₂ | hkv₂
    · exact h kv hkv₂
    · rcases List.mem_singleton.mp hkv₂ with rfl
      exact hv

theorem mergeSection_nopct {old new : CfgSection} (h₁ : NoPctSection old)
    (h₂ : NoPctSection new) : NoPctSection (mergeSection old new) := by
  have aux : ∀ (nw ol : CfgSection), NoPctSection ol → NoPctSection nw →
      NoPctSection (mergeSection ol nw) := by
    intro nw
    induction nw with
    | nil => intro ol h₁ _; exact h₁
    | cons kv t ih =>
      intro ol h₁ h₂
      have hstep : NoPctSection (sectionSet ol kv.1 kv.2) :=
        sectionSet_nopct h₁ (h₂ kv (List.mem_cons_self kv t)) kv.1
      have := ih (sectionSet ol kv.1 kv.2) hstep fun x hx => h₂ x (List.mem_cons_of_mem _ hx)
      simpa only [mergeSection, List.foldl_cons] using this
  exact aux new old h₁ h₂

theorem mergeStore_nopct {old new : Store} (h₁ : NoPctStore old) (h₂ : NoPctStore new) :
    NoPctStore (mergeStore old new) := by
  have aux : ∀ (nw ol : Store), NoPctStore ol → NoPctStore nw →
      NoPctStore (mergeStore ol nw) := by
    intro nw
    induction nw with
    | nil => intro ol h₁ _; exact h₁
    | cons sec t ih =>
      intro ol h₁ h₂
      have hsec : NoPctSection sec.2 := h₂ sec (List.mem_cons_self sec t)
      have hstep : NoPctStore (if ol.any (fun p => p.1 == sec.1) then
          ol.map (fun p => if p.1 = sec.1 then (p.1, mergeSection p.2 sec.2) else p)
        else ol ++ [(sec.1, mergeSection [] sec.2)]) := by
        split
        · intro q hq
          rcases List.mem_map.mp hq with ⟨p, hp, rfl⟩
          by_cases hps : p.1 = sec.1
          · simp only [hps, if_pos]
            exact mergeSection_nopct (h₁ p hp) hsec
          · simp only [if_neg hps]
            exact h₁ p hp
        · intro q hq
          rcases List.mem_append.mp hq with hq₂ | hq₂
          · exact h₁ q hq₂
          · rcases List.mem_singleton.mp hq₂ with rfl
            exact mergeSection_nopct (fun kv hkv => absurd hkv (List.not_mem_nil kv)) hsec
      have := ih _ hstep fun x hx => h₂ x (List.mem_cons_of_mem _ hx)
      simpa only [mergeStore, List.foldl_cons] using this
  exact aux new old h₁ h₂

theorem writeMem_nopct {m : Store} (h : NoPctStore m) {v : String}
    (hv : ('%' : Char) ∉ v.data) (s k : String) : NoPctStore (writeMem m s k v) := by
  unfold writeMem
  split
  · intro q hq
    rcases List.mem_map.mp hq with ⟨p, hp, rfl⟩
    by_cases hps : p.1 = s
    · simp only [hps, if_pos]
      exact sectionSet_nopct (h p hp) hv k
    · simp only [if_neg hps]
      exact h p hp
  · intro q hq
    rcases List.mem_append.mp hq with hq₂ | hq₂
    · exact h q hq₂
    · rcases List.mem_singleton.mp hq₂ with rfl
      exact sectionSet_nopct (fun kv hkv => absurd hkv (List.not_mem_nil kv)) hv k

theorem digitChar_ne_pct {n : Nat} (h : n < 10) : Nat.digitChar n ≠ '%' := by
  interval_cases n <;> decide

theorem toDigitsCore_nopct :
    ∀ (fuel n : Nat) (ds : List Char), ('%' : Char) ∉ ds →
      ('%' : Char) ∉ Nat.toDigitsCore 10 fuel n ds := by
  intro fuel
  induction fuel with
  | zero => intro n ds h; exact h
  | succ fuel ih =>
    intro n ds h
    have hd : ('%' : Char) ∉ (Nat.digitChar (n % 10) :: ds) := by
      intro hmem
      rcases List.mem_cons.mp hmem with heq | hmem₂
      · exact digitChar_ne_pct (Nat.mod_lt n (by decide)) heq.symm
      · exact h hmem₂
    simp only [Nat.toDigitsCore]
    split
    · exact hd
    · exact ih (n / 10) _ hd

theorem natRepr_nopct (n : Nat) : ('%' : Char) ∉ (Nat.repr n).data :=
  toDigitsCore_nopct (n + 1) n [] (List.not_mem_nil _)

theorem intToString_nopct (n : Int) : ('%' : Char) ∉ (toString n).data := by
  cases n with
  | ofNat m =>
    show ('%' : Char) ∉ (Nat.repr m).data
    exact natRepr_nopct m
  | negSucc m =>
    show ('%' : Char) ∉ ("-" ++ Nat.repr (m + 1)).data
    rw [show ("-" ++ Nat.repr (m + 1)).data = '-' :: (Nat.repr (m + 1)).data from rfl]
    intro hmem
    rcases List.mem_cons.mp hmem with heq | hmem₂
    · exact absurd heq (by decide)
    · exact natRepr_nopct (m + 1) hmem₂

theorem pyFloatParse_lit {s : String} {ff : PyFloat} (h : pyFloatParse s = some ff) :
    ff.lit = s := by
  unfold pyFloatParse at h
  split at h
  · cases Option.some.inj h
    rfl
  · cases h

theorem setFS_same (fs : FSMap) (p : String) (f : EncFile) : setFS fs p f p = some f := by
  simp [setFS]

theorem reloadDefault_some {st : CState} {f : EncFile} (h : st.fs st.path = some f) :
    Configure.reloadDefault st = .ok { st with mem := mergeStore st.mem (f "UTF-8") } := by
  unfold Configure.reloadDefault Configure._reload
  rw [h]

theorem reloadDefault_none {st : CState} (h : st.fs st.path = none) :
    Configure.reloadDefault st = .exited 1 st.fs := by
  unfold Configure.reloadDefault Configure._reload
  rw [h]
  rfl

theorem write_raised_pct {st : CState} {f : EncFile} (hfile : st.fs st.path = some f)
    {s k : String} (hsk : ¬(s = "" ∨ k = "")) {v : String} (hv : beforeSetOk v = false)
    (b : Bool) : Configure.write st s k v b = .raised "ValueError" st.fs := by
  unfold Configure.write
  rw [reloadDefault_some hfile]
  simp [hsk, hv]

theorem write_raised_save {st : CState} {f : EncFile} (hfile : st.fs st.path = some f)
    {s k : String} (hsk : ¬(s = "" ∨ k = "")) {v : String} (hv : beforeSetOk v = true)
    {e : String}
    (hsave : sortStoreI (writeMem (mergeStore st.mem (f "UTF-8")) s k v) = Except.error e) :
    Configure.write st s k v true = .raised e st.fs := by
  unfold Configure.write
  rw [reloadDefault_some hfile]
  simp [hsk, hv, Configure._save, hsave]

/-- C3: reading a key absent from the store with `required=true` and no
default returns `None` and does not mutate the store: the resulting state's
disk is untouched and its parser content is exactly the reload merge that
every operation performs (configure.py line 93) — in particular the key is
still absent.  The file must exist on disk (otherwise the reload exits the
process instead of returning `None`). -/
theorem claim3_absent_required_read_no_mutation (st : CState) (f : EncFile) (s k : String)
    (hfile : st.fs st.path = some f)
    (hget : configGet (mergeStore st.mem (f "UTF-8")) s k = none) :
    Configure.read st s k none true
        = .ok (none, { st with mem := mergeStore st.mem (f "UTF-8") }) ∧
    ({ st with mem := mergeStore st.mem (f "UTF-8") } : CState).fs = st.fs ∧
    configGet ({ st with mem := mergeStore st.mem (f "UTF-8") } : CState).mem s k = none := by
  refine ⟨?_, rfl, hget⟩
  have hgi := configGetInterp_raw_none hget
  unfold Configure.read Configure._read_conf
  rw [reloadDefault_some hfile]
  by_cases hsk : s = "" ∨ k = ""
  · simp [hsk, hgi, persistBack]
  · simp [hsk, hgi, persistBack]

/-- Witness for C3 at a concrete input. -/
theorem claim3_witness :
    Configure.read stIni "s" "k" none true
        = .ok (none, { stIni with mem := mergeStore stIni.mem (fileEmpty "UTF-8") }) ∧
    ({ stIni with mem := mergeStore stIni.mem (fileEmpty "UTF-8") } : CState).fs = stIni.fs ∧
    configGet ({ stIni with mem := mergeStore stIni.mem (fileEmpty "UTF-8") } : CState).mem
      "s" "k" = none :=
  claim3_absent_required_read_no_mutation stIni fileEmpty "s" "k" rfl (by decide)

/-- C8: a `write` with an empty section or key name terminates the process
with exit status 1 (non-zero) and leaves the disk exactly as it was (the
`exit(1)` at configure.py line 210 runs before any mutation is persisted);
this holds whether or not the configuration file exists, and for any `store`
flag. -/
theorem claim8_write_empty_names_exits (st : CState) (s k v : String) (b : Bool)
    (hempty : s = "" ∨ k = "") :
    Configure.write st s k v b = .exited 1 st.fs ∧
    PyResult.processExit (Configure.write st s k v b) = some 1 := by
  have hmain : Configure.write st s k v b = .exited 1 st.fs := by
    unfold Configure.write
    cases hfs : st.fs st.path with
    | none => rw [reloadDefault_none hfs]
    | some f =>
      rw [reloadDefault_some hfs]
      simp [hempty]
  exact ⟨hmain, by rw [hmain]; rfl⟩

/-- Witness for C8 at a concrete input. -/
theorem claim8_witness :
    Configure.write stIni "" "k" "v" true = .exited 1 stIni.fs ∧
    PyResult.processExit (Configure.write stIni "" "k" "v" true) = some 1 :=
  claim8_write_empty_names_exits stIni "" "k" "v" true (Or.inl rfl)

/-- C9: when the configuration file is absent from disk at the moment any
accessor runs, the reload at the start of the operation (configure.py lines
93 and 207, `force_quit` defaulting to true) terminates the process with exit
status 1, for all six operations. -/
theorem claim9_missing_file_fatal_everywhere (st : CState) (hfs : st.fs st.path = none)
    (s k : String) (dv : Option String) (db : Option Bool) (di : Option Int)
    (df : Option PyFloat) (req : Bool) (v : String) (b : Bool) :
    Configure.read st s k dv req = .exited 1 st.fs ∧
    Configure.read_bool st s k db req = .exited 1 st.fs ∧
    Configure.read_int st s k di req = .exited 1 st.fs ∧
    Configure.read_float st s k df req = .exited 1 st.fs ∧
    Configure.read_json st s k = .exited 1 st.fs ∧
    Configure.write st s k v b = .exited 1 st.fs := by
  have hrc : ∀ d r, Configure._read_conf st s k d r = .exited 1 st.fs := by
    intro d r
    unfold Configure._read_conf
    rw [reloadDefault_none hfs]
  refine ⟨?_, ?_, ?_, ?_, ?_, ?_⟩
  · unfold Configure.read
    rw [hrc]
  · unfold Configure.read_bool
    rw [hrc]
  · unfold Configure.read_int
    rw [hrc]
  · unfold Configure.read_float
    rw [hrc]
  · unfold Configure.read_json
    rw [hrc]
  · unfold Configure.write
    rw [reloadDefault_none hfs]

/-- Witness for C9 at a concrete input. -/
theorem claim9_witness :
    Configure.read ⟨[], "gone.ini", fun _ => none⟩ "s" "k" none true
      = .exited 1 (fun _ => none) ∧
    Configure.read_bool ⟨[], "gone.ini", fun _ => none⟩ "s" "k" none true
      = .exited 1 (fun _ => none) ∧
    Configure.read_int ⟨[], "gone.ini", fun _ => none⟩ "s" "k" none true
      = .exited 1 (fun _ => none) ∧
    Configure.read_float ⟨[], "gone.ini", fun _ => none⟩ "s" "k" none true
      = .exited 1 (fun _ => none) ∧
    Configure.read_json ⟨[], "gone.ini", fun _ => none⟩ "s" "k"
      = .exited 1 (fun _ => none) ∧
    Configure.write ⟨[], "gone.ini", fun _ => none⟩ "s" "k" "v" true
      = .exited 1 (fun _ => none) :=
  claim9_missing_file_fatal_everywhere ⟨[], "gone.ini", fun _ => none⟩ rfl
    "s" "k" none none none none true "v" true

/-- C7: `export` to an existing path with `force=false` returns `False` and
leaves the whole file system (in particular the existing file) untouched;
`export` to any path with `force=true` writes the serialized in-memory store
(unsorted, exactly as held) to that path and returns `True`
(configure.py lines 44-52). -/
theorem claim7_export_force_semantics (st : CState) (p : String) :
    ((st.fs p).isSome = true → Configure.«export» st p false = .ok (false, st)) ∧
    Configure.«export» st p true
      = .ok (true, { st with fs := setFS st.fs p (fun _ => st.mem) }) := by
  constructor
  · intro h
    unfold Configure.«export»
    rw [if_pos (by simp [h])]
  · unfold Configure.«export»
    rw [if_neg (by simp)]

/-- Witness for C7 at a concrete input, the hypothesis of the first conjunct
discharged: the target file exists. -/
theorem claim7_witness :
    Configure.«export» stIniA "config.ini" false = .ok (false, stIniA) ∧
    Configure.«export» stIniA "config.ini" true
      = .ok (true, { stIniA with fs := setFS stIniA.fs "config.ini" (fun _ => stIniA.mem) }) :=
  ⟨(claim7_export_force_semantics stIniA "config.ini").1 (by decide),
   (claim7_export_force_semantics stIniA "config.ini").2⟩

/-- C5 counterexample: the save loop re-inserts the *interpolated* items of
each section (`items()` applies `before_get`), re-validated by `before_set`.
On a store holding a `%%` value (reachable by reading a file containing
`x = %%`), the interpolated item is a bare `%`, whose re-`set` raises
`ValueError`: the save dies before the file is opened, so no sorted store is
written at all — already a `write` that triggers the save leaves the disk
unchanged and kills the process.  This refutes the claim that *every* save
re-sorts and writes the full store. -/
theorem claim5_counterexample :
    Configure._save stPct = Except.error "ValueError" ∧
    Configure.write stPct "t" "b" "1" true = .raised "ValueError" stPct.fs ∧
    PyResult.processExit (Configure.write stPct "t" "b" "1" true) = some 1 :=
  ⟨rfl, rfl, rfl⟩

/-- C5 (amended): on every save that completes — equivalently, every save on
a store whose interpolated items all pass `before_set` re-validation, for
which `sortStoreI` returns a store — each section is re-sorted by key: the
saved state's parser lists, section by section (same names, same order), a
key-sorted permutation of the *interpolated* items of the original section
(for `%`-free values, the pairs themselves), and the full store is then
written to disk.  The concrete scenario of the claim:
`write("sec","b","2")`, `write("sec","a","1")`, then a save, yields a store
in which within `sec` the pair for `a` precedes the pair for `b`. -/
theorem claim5_save_sorts_sections (st : CState) (m' : Store) (hwf : StoreWF st.mem)
    (hok : sortStoreI st.mem = Except.ok m') :
    (Configure._save st = Except.ok ⟨m', st.path, setFS st.fs st.path (fun _ => m')⟩ ∧
     (setFS st.fs st.path (fun _ => m')) st.path = some (fun _ => m') ∧
     List.Forall₂ (fun p q : String × CfgSection =>
         p.1 = q.1 ∧ ∃ itemsI : CfgSection, interpItems p.2 = Except.ok itemsI ∧
           q.2.Perm itemsI ∧ q.2.Pairwise (fun a b => a.1 ≤ b.1))
       st.mem m') ∧
    (∃ st₁ st₂ st₃ : CState,
      Configure.write stIni "sec" "b" "2" true = .ok ((), st₁) ∧
      Configure.write st₁ "sec" "a" "1" true = .ok ((), st₂) ∧
      Configure._save st₂ = Except.ok st₃ ∧
      st₃.mem = [("sec", [("a", "1"), ("b", "2")])] ∧
      st₃.fs "config.ini" = some (fun _ => st₃.mem)) := by
  refine ⟨⟨?_, setFS_same st.fs st.path _, sortStoreI_forall₂ st.mem m' hwf hok⟩, ?_⟩
  · unfold Configure._save
    rw [hok]
  · refine ⟨_, _, _, rfl, rfl, rfl, ?_, ?_⟩
    · decide
    · rfl

/-- Witness for C5 (amended) at a concrete input. -/
theorem claim5_witness :
    (Configure._save stSortEx = Except.ok ⟨[("sec", [("a", "1"), ("b", "2")])], stSortEx.path,
        setFS stSortEx.fs stSortEx.path (fun _ => [("sec", [("a", "1"), ("b", "2")])])⟩ ∧
     (setFS stSortEx.fs stSortEx.path
        (fun _ => [("sec", [("a", "1"), ("b", "2")])])) stSortEx.path
       = some (fun _ => [("sec", [("a", "1"), ("b", "2")])]) ∧
     List.Forall₂ (fun p q : String × CfgSection =>
         p.1 = q.1 ∧ ∃ itemsI : CfgSection, interpItems p.2 = Except.ok itemsI ∧
           q.2.Perm itemsI ∧ q.2.Pairwise (fun a b => a.1 ≤ b.1))
       stSortEx.mem [("sec", [("a", "1"), ("b", "2")])]) ∧
    (∃ st₁ st₂ st₃ : CState,
      Configure.write stIni "sec" "b" "2" true = .ok ((), st₁) ∧
      Configure.write st₁ "sec" "a" "1" true = .ok ((), st₂) ∧
      Configure._save st₂ = Except.ok st₃ ∧
      st₃.mem = [("sec", [("a", "1"), ("b", "2")])] ∧
      st₃.fs "config.ini" = some (fun _ => st₃.mem)) :=
  claim5_save_sorts_sections stSortEx [("sec", [("a", "1"), ("b", "2")])] (by decide) rfl

/-- C4: `__init__` calls `_reload(encoding, force_quit=False)` (configure.py
line 24), so a missing file at construction always reaches the prompt
(lines 67-70).  Non-interactive caller (stdin closed / exhausted): `input()`
raises `EOFError`, which nothing catches, so construction aborts the process
— an uncaught exception terminates CPython with exit status 1, which is
non-zero.  Interactive caller: the operator is prompted, and any confirmed
answer (`y`/`Y`, or blank defaulting to `y`) makes `export` write an empty
file to the configuration path immediately. -/
theorem claim4_init_missing_file (path encoding : String) (fs : FSMap)
    (hfs : fs path = none) :
    (Configure.init path encoding fs [] = .raised "EOFError" fs ∧
     PyResult.processExit (Configure.init path encoding fs []) = some 1) ∧
    (∀ (inputs : List String) (ans : String),
      promptLoop yesNoValidator (some "y") inputs = some ans →
      pyIn ans "Yy" = true →
      Configure.init path encoding fs inputs
        = .ok ⟨[], path, setFS fs path (fun _ => [])⟩) := by
  have h1 : Configure.init path encoding fs [] = .raised "EOFError" fs := by
    unfold Configure.init Configure._reload
    simp only [hfs]
    rfl
  refine ⟨⟨h1, by rw [h1]; rfl⟩, ?_⟩
  intro inputs ans hp hy
  unfold Configure.init Configure._reload
  simp only [hfs, hp, hy]
  unfold Configure.«export»
  simp [hfs]

/-- Witness for C4 at a concrete input: closed stdin aborts; answering `y`
creates the empty file. -/
theorem claim4_witness :
    (Configure.init "config.ini" "UTF-8" (fun _ => none) []
        = .raised "EOFError" (fun _ => none) ∧
     PyResult.processExit (Configure.init "config.ini" "UTF-8" (fun _ => none) [])
        = some 1) ∧
    Configure.init "config.ini" "UTF-8" (fun _ => none) ["y"]
      = .ok ⟨[], "config.ini", setFS (fun _ => none) "config.ini" (fun _ => [])⟩ :=
  ⟨(claim4_init_missing_file "config.ini" "UTF-8" (fun _ => none) rfl).1,
   (claim4_init_missing_file "config.ini" "UTF-8" (fun _ => none) rfl).2 ["y"] "y"
     (by decide) (by decide)⟩

theorem read_conf_file_none {st : CState} (hfs : st.fs st.path = none)
    (s k : String) (d : Option String) (r : Bool) :
    Configure._read_conf st s k d r = .exited 1 st.fs := by
  unfold Configure._read_conf
  rw [reloadDefault_none hfs]

theorem read_conf_empty {st : CState} {f : EncFile} (hfile : st.fs st.path = some f)
    {s k : String} (hsk : s = "" ∨ k = "") (d : Option String) (r : Bool) :
    Configure._read_conf st s k d r
      = .ok (none, { st with mem := mergeStore st.mem (f "UTF-8") }) := by
  unfold Configure._read_conf
  rw [reloadDefault_some hfile]
  simp [hsk]

theorem read_conf_found {st : CState} {f : EncFile} (hfile : st.fs st.path = some f)
    {s k w : String} (hsk : ¬(s = "" ∨ k = ""))
    (hget : configGetInterp (mergeStore st.mem (f "UTF-8")) s k = Except.ok (some w))
    (d : Option String) (r : Bool) :
    Configure._read_conf st s k d r
      = .ok (some w, { st with mem := mergeStore st.mem (f "UTF-8") }) := by
  unfold Configure._read_conf
  rw [reloadDefault_some hfile]
  simp [hsk, hget]

theorem read_conf_interp_error {st : CState} {f : EncFile} (hfile : st.fs st.path = some f)
    {s k : String} (hsk : ¬(s = "" ∨ k = "")) {e : String}
    (hget : configGetInterp (mergeStore st.mem (f "UTF-8")) s k = Except.error e)
    (d : Option String) (r : Bool) :
    Configure._read_conf st s k d r = .raised e st.fs := by
  unfold Configure._read_conf
  rw [reloadDefault_some hfile]
  simp [hsk, hget]

theorem read_conf_required_none {st : CState} {f : EncFile} (hfile : st.fs st.path = some f)
    {s k : String} (hsk : ¬(s = "" ∨ k = ""))
    (hget : configGet (mergeStore st.mem (f "UTF-8")) s k = none) :
    Configure._read_conf st s k none true
      = .ok (none, { st with mem := mergeStore st.mem (f "UTF-8") }) := by
  have hgi := configGetInterp_raw_none hget
  unfold Configure._read_conf
  rw [reloadDefault_some hfile]
  simp [hsk, hgi]

theorem read_conf_absent {st : CState} {f : EncFile} (hfile : st.fs st.path = some f)
    {s k : String} (hsk : ¬(s = "" ∨ k = ""))
    (hget : configGet (mergeStore st.mem (f "UTF-8")) s k = none)
    (d : Option String) (r : Bool) :
    Configure._read_conf st s k d r
      = .ok (if r = true ∧ d = none then none else d,
          { st with mem := mergeStore st.mem (f "UTF-8") }) := by
  have hgi := configGetInterp_raw_none hget
  unfold Configure._read_conf
  rw [reloadDefault_some hfile]
  simp only [hgi, if_neg hsk]
  by_cases hrd : r = true ∧ d = none
  · rw [if_pos hrd, if_pos hrd]
  · rw [if_neg hrd, if_neg hrd]

theorem export_not_raised (st : CState) (p : String) (frc : Bool) :
    (Configure.«export» st p frc).isRaised = false := by
  unfold Configure.«export»
  split <;> rfl

theorem ops_nofile_not_raised (st : CState) (hfs : st.fs st.path = none) (s k v : String)
    (dv : Option String) (db : Option Bool) (di : Option Int) (df : Option PyFloat)
    (req b : Bool) :
    (Configure.read st s k dv req).isRaised = false ∧
    (Configure.read_bool st s k db req).isRaised = false ∧
    (Configure.read_int st s k di req).isRaised = false ∧
    (Configure.read_float st s k df req).isRaised = false ∧
    (Configure.read_json st s k).isRaised = false ∧
    (Configure.write st s k v b).isRaised = false := by
  have hrc : ∀ d r, Configure._read_conf st s k d r = .exited 1 st.fs :=
    fun d r => read_conf_file_none hfs s k d r
  refine ⟨?_, ?_, ?_, ?_, ?_, ?_⟩
  · unfold Configure.read
    rw [hrc]
    rfl
  · unfold Configure.read_bool
    rw [hrc]
    rfl
  · unfold Configure.read_int
    rw [hrc]
    rfl
  · unfold Configure.read_float
    rw [hrc]
    rfl
  · unfold Configure.read_json
    rw [hrc]
    rfl
  · unfold Configure.write
    rw [reloadDefault_none hfs]
    rfl

theorem write_clean_not_raised {st : CState} {f : EncFile} (hfile : st.fs st.path = some f)
    (hcm : NoPctStore st.mem) (hcf : NoPctStore (f "UTF-8")) {v : String}
    (hv : ('%' : Char) ∉ v.data) (s k : String) (b : Bool) :
    (Configure.write st s k v b).isRaised = false := by
  unfold Configure.write
  rw [reloadDefault_some hfile]
  by_cases hsk : s = "" ∨ k = ""
  · simp [hsk, PyResult.isRaised]
  · have hbs : beforeSetOk v = true := beforeSetOk_clean hv
    have hcmm : NoPctStore (mergeStore st.mem (f "UTF-8")) := mergeStore_nopct hcm hcf
    have hsave := sortStoreI_clean (writeMem_nopct hcmm hv s k)
    cases b <;> simp [hsk, hbs, Configure._save, hsave, PyResult.isRaised]

theorem persistBack_clean_not_raised {α : Type} (m : Store) (path : String) (fsx : FSMap)
    {f₂ : EncFile} (hfile₂ : fsx path = some f₂) (hm : NoPctStore m)
    (hf₂ : NoPctStore (f₂ "UTF-8")) (s k : String) (w : Option α) (ser : α → String)
    (hser : ∀ x, w = some x → ('%' : Char) ∉ (ser x).data) :
    (persistBack ⟨m, path, fsx⟩ s k w ser).isRaised = false := by
  unfold persistBack
  simp only [configGetInterp_clean hm]
  cases hg : configGet m s k with
  | some u => simp [hg, PyResult.isRaised]
  | none =>
    cases w with
    | none => simp [hg, PyResult.isRaised]
    | some x =>
      have hwx := @write_clean_not_raised ⟨m, path, fsx⟩ f₂ hfile₂ hm hf₂
        (ser x) (hser x rfl) s k true
      cases hw : Configure.write ⟨m, path, fsx⟩ s k (ser x) true with
      | ok pr => simp [hg, hw, PyResult.isRaised]
      | exited n fsy => simp [hg, hw, PyResult.isRaised]
      | raised e fsy =>
        rw [hw] at hwx
        exact absurd hwx (by simp [PyResult.isRaised])

theorem read_clean_not_raised {st : CState} {f : EncFile} (hfile : st.fs st.path = some f)
    (hcm : NoPctStore st.mem) (hcf : NoPctStore (f "UTF-8")) (s k : String)
    (dv : Option String) (req : Bool)
    (hdv : ∀ d, dv = some d → ('%' : Char) ∉ d.data) :
    (Configure.read st s k dv req).isRaised = false := by
  have hcM : NoPctStore (mergeStore st.mem (f "UTF-8")) := mergeStore_nopct hcm hcf
  unfold Configure.read
  by_cases hsk : s = "" ∨ k = ""
  · rw [read_conf_empty hfile hsk dv req]
    exact persistBack_clean_not_raised (mergeStore st.mem (f "UTF-8")) st.path st.fs
      hfile hcM hcf s k none _ (fun x hx => nomatch hx)
  · cases hget : configGet (mergeStore st.mem (f "UTF-8")) s k with
    | some w =>
      have hgi : configGetInterp (mergeStore st.mem (f "UTF-8")) s k = Except.ok (some w) := by
        rw [configGetInterp_clean hcM, hget]
      rw [read_conf_found hfile hsk hgi dv req]
      exact persistBack_clean_not_raised _ st.path st.fs hfile hcM hcf s k (some w) _
        (fun x hx => by cases hx; exact configGet_clean_val hcM hget)
    | none =>
      rw [read_conf_absent hfile hsk hget dv req]
      by_cases hrd : req = true ∧ dv = none
      · rw [if_pos hrd]
        exact persistBack_clean_not_raised _ st.path st.fs hfile hcM hcf s k none _
          (fun x hx => nomatch hx)
      · rw [if_neg hrd]
        cases dv with
        | none =>
          exact persistBack_clean_not_raised _ st.path st.fs hfile hcM hcf s k none _
            (fun x hx => nomatch hx)
        | some d =>
          exact persistBack_clean_not_raised _ st.path st.fs hfile hcM hcf s k (some d) _
            (fun x hx => by cases hx; exact hdv d rfl)

theorem read_bool_clean_not_raised {st : CState} {f : EncFile} (hfile : st.fs st.path = some f)
    (hcm : NoPctStore st.mem) (hcf : NoPctStore (f "UTF-8")) (s k : String)
    (db : Option Bool) (req : Bool) :
    (Configure.read_bool st s k db req).isRaised = false := by
  have hcM : NoPctStore (mergeStore st.mem (f "UTF-8")) := mergeStore_nopct hcm hcf
  have hserB : ∀ (w : Option Bool) (x : Bool), w = some x →
      ('%' : Char) ∉ (pyStrOfBool x).data := fun w x _ => by cases x <;> decide
  unfold Configure.read_bool
  by_cases hsk : s = "" ∨ k = ""
  · rw [read_conf_empty hfile hsk _ req]
    exact persistBack_clean_not_raised _ st.path st.fs hfile hcM hcf s k _ _ (hserB _)
  · cases hget : configGet (mergeStore st.mem (f "UTF-8")) s k with
    | some w =>
      have hgi : configGetInterp (mergeStore st.mem (f "UTF-8")) s k = Except.ok (some w) := by
        rw [configGetInterp_clean hcM, hget]
      rw [read_conf_found hfile hsk hgi _ req]
      exact persistBack_clean_not_raised _ st.path st.fs hfile hcM hcf s k _ _ (hserB _)
    | none =>
      rw [read_conf_absent hfile hsk hget _ req,
        if_neg (by simp : ¬(req = true ∧ some (pyStrOfOptBool db) = none))]
      exact persistBack_clean_not_raised _ st.path st.fs hfile hcM hcf s k _ _ (hserB _)

theorem read_int_raised_iff_clean {st : CState} {f : EncFile}
    (hfile : st.fs st.path = some f) (hcm : NoPctStore st.mem)
    (hcf : NoPctStore (f "UTF-8")) (s k : String) (di : Option Int) (req : Bool) :
    (Configure.read_int st s k di req).isRaised = true ↔ (s = "" ∨ k = "") := by
  have hcM : NoPctStore (mergeStore st.mem (f "UTF-8")) := mergeStore_nopct hcm hcf
  have hnr : ∀ w₂ : Option Int,
      (persistBack ⟨mergeStore st.mem (f "UTF-8"), st.path, st.fs⟩ s k w₂ toString).isRaised
        = false :=
    fun w₂ => persistBack_clean_not_raised _ st.path st.fs hfile hcM hcf s k w₂ toString
      (fun x _ => intToString_nopct x)
  unfold Configure.read_int
  by_cases hsk : s = "" ∨ k = ""
  · rw [read_conf_empty hfile hsk _ req]
    simp [PyResult.isRaised, hsk]
  · cases hget : configGet (mergeStore st.mem (f "UTF-8")) s k with
    | some w =>
      have hgi : configGetInterp (mergeStore st.mem (f "UTF-8")) s k = Except.ok (some w) := by
        rw [configGetInterp_clean hcM, hget]
      rw [read_conf_found hfile hsk hgi _ req]
      simp [hnr, hsk]
    | none =>
      rw [read_conf_absent hfile hsk hget _ req,
        if_neg (by simp : ¬(req = true ∧ some (pyStrOfOptInt di) = none))]
      simp [hnr, hsk]

theorem read_float_raised_iff_clean {st : CState} {f : EncFile}
    (hfile : st.fs st.path = some f) (hcm : NoPctStore st.mem)
    (hcf : NoPctStore (f "UTF-8")) (s k : String) (df : Option PyFloat) (req : Bool)
    (hdf : ∀ x, df = some x → ('%' : Char) ∉ x.lit.data) :
    (Configure.read_float st s k df req).isRaised = true ↔ (s = "" ∨ k = "") := by
  have hcM : NoPctStore (mergeStore st.mem (f "UTF-8")) := mergeStore_nopct hcm hcf
  have hnr : ∀ (sv : String), ('%' : Char) ∉ sv.data →
      (persistBack ⟨mergeStore st.mem (f "UTF-8"), st.path, st.fs⟩ s k
        (match pyFloatParse sv with
         | some ff => some ff
         | none => df) pyFloatStr).isRaised = false := by
    intro sv hsv
    apply persistBack_clean_not_raised _ st.path st.fs hfile hcM hcf s k _ pyFloatStr
    intro x hx
    cases hp : pyFloatParse sv with
    | some ff =>
      rw [hp] at hx
      have hfx : ff = x := Option.some.inj hx
      rw [show pyFloatStr x = sv from by rw [← hfx]; exact pyFloatParse_lit hp]
      exact hsv
    | none =>
      rw [hp] at hx
      exact hdf x hx
  unfold Configure.read_float
  by_cases hsk : s = "" ∨ k = ""
  · rw [read_conf_empty hfile hsk _ req]
    simp [PyResult.isRaised, hsk]
  · cases hget : configGet (mergeStore st.mem (f "UTF-8")) s k with
    | some w =>
      have hgi : configGetInterp (mergeStore st.mem (f "UTF-8")) s k = Except.ok (some w) := by
        rw [configGetInterp_clean hcM, hget]
      rw [read_conf_found hfile hsk hgi _ req]
      simp [hnr w (configGet_clean_val hcM hget), hsk]
    | none =>
      rw [read_conf_absent hfile hsk hget _ req,
        if_neg (by simp : ¬(req = true ∧ some (pyStrOfOptFloat df) = none))]
      have hclean : ('%' : Char) ∉ (pyStrOfOptFloat df).data := by
        cases hdfc : df with
        | none => decide
        | some x =>
          show ('%' : Char) ∉ (pyFloatStr x).data
          exact hdf x hdfc
      simp [hnr (pyStrOfOptFloat df) hclean, hsk]

theorem read_json_raised_iff_clean {st : CState} {f : EncFile}
    (hfile : st.fs st.path = some f) (hcm : NoPctStore st.mem)
    (hcf : NoPctStore (f "UTF-8")) (s k : String) :
    (Configure.read_json st s k).isRaised = true ↔
      (s = "" ∨ k = "" ∨ configGet (mergeStore st.mem (f "UTF-8")) s k = none) := by
  have hcM : NoPctStore (mergeStore st.mem (f "UTF-8")) := mergeStore_nopct hcm hcf
  unfold Configure.read_json
  by_cases hsk : s = "" ∨ k = ""
  · rw [read_conf_empty hfile hsk none true]
    simp only [PyResult.isRaised]
    constructor
    · intro _
      rcases hsk with h | h
      · exact Or.inl h
      · exact Or.inr (Or.inl h)
    · intro _
      trivial
  · cases hget : configGet (mergeStore st.mem (f "UTF-8")) s k with
    | some w =>
      have hgi : configGetInterp (mergeStore st.mem (f "UTF-8")) s k = Except.ok (some w) := by
        rw [configGetInterp_clean hcM, hget]
      rw [read_conf_found hfile hsk hgi none true]
      cases hj : pyJsonLoads w <;>
        simp [hj, PyResult.isRaised, hsk, hget]
    | none =>
      rw [read_conf_required_none hfile hsk hget]
      simp [PyResult.isRaised, hget]

/-- C2 counterexample: `read_json` on a key absent from the store passes the
`None` returned by `_read_conf` to `json.loads`, which raises `TypeError`
(configure.py lines 196-198; only `JSONDecodeError` is caught), so the
exception escapes to the caller and kills the process — refuting the claim
that no accessor ever lets an exception escape. -/
theorem claim2_counterexample :
    Configure.read_json stIni "s" "k" = .raised "TypeError" stIni.fs ∧
    (Configure.read_json stIni "s" "k").isRaised = true ∧
    PyResult.processExit (Configure.read_json stIni "s" "k") = some 1 :=
  ⟨rfl, rfl, rfl⟩

/-- C2 (amended): `export` never raises.  With the configuration file
missing, every accessor exits (`SystemExit` by design) instead of raising.
With the file present and every value of the store and of the file's `UTF-8`
decoding free of `%` — so `BasicInterpolation` is the identity — `write` of
a `%`-free value, `read` with a `%`-free default, and `read_bool` never
raise; `read_int` raises (`TypeError`, from `int(None, 10)`) exactly on an
empty section or key name, `read_float` likewise (given `%`-free float
literals for the default), and `read_json` raises (`TypeError`, from
`json.loads(None)`) exactly when the resolved value is `None`: empty names
or absent key (see `claim2_counterexample`).  Beyond that surface,
interpolation adds escaping exceptions the original claim does not allow: a
`write` whose value fails `before_set` raises an uncaught `ValueError`, and
a `read` of a stored value whose interpolation fails propagates the
`InterpolationSyntaxError` / `InterpolationMissingOptionError` /
`InterpolationDepthError` uncaught. -/
theorem claim2_amended_exception_surface (st : CState) (s k v p : String)
    (dv : Option String) (db : Option Bool) (di : Option Int) (df : Option PyFloat)
    (req b frc : Bool) :
    (Configure.«export» st p frc).isRaised = false ∧
    (st.fs st.path = none →
      (Configure.read st s k dv req).isRaised = false ∧
      (Configure.read_bool st s k db req).isRaised = false ∧
      (Configure.read_int st s k di req).isRaised = false ∧
      (Configure.read_float st s k df req).isRaised = false ∧
      (Configure.read_json st s k).isRaised = false ∧
      (Configure.write st s k v b).isRaised = false) ∧
    (∀ f, st.fs st.path = some f → NoPctStore st.mem → NoPctStore (f "UTF-8") →
      (('%' : Char) ∉ v.data → (Configure.write st s k v b).isRaised = false) ∧
      ((∀ d, dv = some d → ('%' : Char) ∉ d.data) →
        (Configure.read st s k dv req).isRaised = false) ∧
      (Configure.read_bool st s k db req).isRaised = false ∧
      ((Configure.read_int st s k di req).isRaised = true ↔ (s = "" ∨ k = "")) ∧
      ((∀ x, df = some x → ('%' : Char) ∉ x.lit.data) →
        ((Configure.read_float st s k df req).isRaised = true ↔ (s = "" ∨ k = ""))) ∧
      ((Configure.read_json st s k).isRaised = true ↔
        (s = "" ∨ k = "" ∨ configGet (mergeStore st.mem (f "UTF-8")) s k = none))) ∧
    (∀ f, st.fs st.path = some f → ¬(s = "" ∨ k = "") →
      (beforeSetOk v = false → Configure.write st s k v b = .raised "ValueError" st.fs) ∧
      (∀ e, configGetInterp (mergeStore st.mem (f "UTF-8")) s k = Except.error e →
        Configure.read st s k dv req = .raised e st.fs)) := by
  refine ⟨export_not_raised st p frc, ?_, ?_, ?_⟩
  · intro hfs
    exact ops_nofile_not_raised st hfs s k v dv db di df req b
  · intro f hfile hcm hcf
    exact ⟨fun hv => write_clean_not_raised hfile hcm hcf hv s k b,
      fun hdv => read_clean_not_raised hfile hcm hcf s k dv req hdv,
      read_bool_clean_not_raised hfile hcm hcf s k db req,
      read_int_raised_iff_clean hfile hcm hcf s k di req,
      fun hdf => read_float_raised_iff_clean hfile hcm hcf s k df req hdf,
      read_json_raised_iff_clean hfile hcm hcf s k⟩
  · intro f hfile hsk
    refine ⟨fun hv => write_raised_pct hfile hsk hv b, fun e hget => ?_⟩
    unfold Configure.read
    rw [read_conf_interp_error hfile hsk hget dv req]

/-- Witness for C2 (amended) at concrete inputs, every hypothesis
discharged: no-raise conjuncts on a clean empty store, the raise
equivalences where they predict a raise (empty section for
`read_int`/`read_float`, absent key for `read_json`), the `ValueError` of a
`%` write, and the escaping `InterpolationSyntaxError` of a stored `50%`. -/
theorem claim2_witness :
    (Configure.«export» stIni "out.ini" false).isRaised = false ∧
    (Configure.read_json ⟨[], "gone.ini", fun _ => none⟩ "s" "k").isRaised = false ∧
    (Configure.write stIni "s" "k" "v" true).isRaised = false ∧
    (Configure.read stIni "s" "k" none true).isRaised = false ∧
    (Configure.read_bool stIni "s" "k" none true).isRaised = false ∧
    (Configure.read_int stIni "" "k" (some 5) true).isRaised = true ∧
    (Configure.read_float stIni "" "k" none true).isRaised = true ∧
    (Configure.read_json stIni "s" "k").isRaised = true ∧
    Configure.write stIni "s" "k" "%" true = .raised "ValueError" stIni.fs ∧
    Configure.read ⟨[("t", [("x", "50%")])], "config.ini", fsIni⟩ "t" "x" none true
      = .raised "InterpolationSyntaxError" fsIni :=
  ⟨(claim2_amended_exception_surface stIni "s" "k" "v" "out.ini" none none (some 5) none
      true true false).1,
   ((claim2_amended_exception_surface ⟨[], "gone.ini", fun _ => none⟩ "s" "k" "v" "out.ini"
      none none (some 5) none true true false).2.1 rfl).2.2.2.2.1,
   ((claim2_amended_exception_surface stIni "s" "k" "v" "out.ini" none none (some 5) none
      true true false).2.2.1 fileEmpty rfl (by decide) (by decide)).1 (by decide),
   ((claim2_amended_exception_surface stIni "s" "k" "v" "out.ini" none none (some 5) none
      true true false).2.2.1 fileEmpty rfl (by decide) (by decide)).2.1
     (fun d h => nomatch h),
   ((claim2_amended_exception_surface stIni "s" "k" "v" "out.ini" none none (some 5) none
      true true false).2.2.1 fileEmpty rfl (by decide) (by decide)).2.2.1,
   ((claim2_amended_exception_surface stIni "" "k" "v" "out.ini" none none (some 5) none
      true true false).2.2.1 fileEmpty rfl (by decide) (by decide)).2.2.2.1.mpr (Or.inl rfl),
   (((claim2_amended_exception_surface stIni "" "k" "v" "out.ini" none none (some 5) none
      true true false).2.2.1 fileEmpty rfl (by decide) (by decide)).2.2.2.2.1
     (fun x hx => nomatch hx)).mpr (Or.inl rfl),
   ((claim2_amended_exception_surface stIni "s" "k" "v" "out.ini" none none (some 5) none
      true true false).2.2.1 fileEmpty rfl (by decide) (by decide)).2.2.2.2.2.mpr
     (Or.inr (Or.inr (by decide))),
   ((claim2_amended_exception_surface stIni "s" "k" "%" "out.ini" none none (some 5) none
      true true false).2.2.2 fileEmpty rfl (by decide)).1 (by decide),
   ((claim2_amended_exception_surface ⟨[("t", [("x", "50%")])], "config.ini", fsIni⟩
      "t" "x" "v" "out.ini" none none (some 5) none true true false).2.2.2 fileEmpty rfl
     (by decide)).2 "InterpolationSyntaxError" rfl⟩

theorem write_view_indep (M : Store) (path : String) (fsx : FSMap) (f g : EncFile)
    (hfg : f "UTF-8" = g "UTF-8") (s k v : String) (b : Bool) :
    writeView (Configure.write ⟨M, path, setFS fsx path f⟩ s k v b)
      = writeView (Configure.write ⟨M, path, setFS fsx path g⟩ s k v b) := by
  have hfF : (⟨M, path, setFS fsx path f⟩ : CState).fs
      (⟨M, path, setFS fsx path f⟩ : CState).path = some f := setFS_same fsx path f
  have hfG : (⟨M, path, setFS fsx path g⟩ : CState).fs
      (⟨M, path, setFS fsx path g⟩ : CState).path = some g := setFS_same fsx path g
  unfold Configure.write
  rw [reloadDefault_some hfF, reloadDefault_some hfG]
  simp only [hfg]
  by_cases hsk : s = "" ∨ k = ""
  · simp [hsk, writeView]
  · by_cases hbs : beforeSetOk v = true
    · cases b with
      | false => simp [hsk, hbs, writeView]
      | true =>
        cases hsave : sortStoreI (writeMem (mergeStore M (g "UTF-8")) s k v) with
        | error e => simp [hsk, hbs, Configure._save, hsave, writeView]
        | ok sorted => simp [hsk, hbs, Configure._save, hsave, writeView]
    · simp [hsk, hbs, writeView]

theorem persistBack_view_indep (M : Store) (path : String) (fsx : FSMap) (f g : EncFile)
    (hfg : f "UTF-8" = g "UTF-8") (s k : String) (w : Option String) :
    readView (persistBack ⟨M, path, setFS fsx path f⟩ s k w (fun v => v))
      = readView (persistBack ⟨M, path, setFS fsx path g⟩ s k w (fun v => v)) := by
  unfold persistBack
  cases hci : configGetInterp M s k with
  | error e => simp [hci, readView]
  | ok r =>
    cases r with
    | some u => simp [hci, readView]
    | none =>
      cases w with
      | none => simp [hci, readView]
      | some x =>
        have hv := write_view_indep M path fsx f g hfg s k x true
        simp only [hci]
        cases hwF : Configure.write ⟨M, path, setFS fsx path f⟩ s k x true with
        | ok pr =>
          cases hwG : Configure.write ⟨M, path, setFS fsx path g⟩ s k x true with
          | ok pr₂ =>
            rw [hwF, hwG] at hv
            simp only [writeView] at hv
            injection hv with h1 h2
            simp [readView, h2]
          | exited n₂ fsy =>
            rw [hwF, hwG] at hv
            exact absurd hv (by simp [writeView])
          | raised e₂ fsy =>
            rw [hwF, hwG] at hv
            exact absurd hv (by simp [writeView])
        | exited n fsy =>
          cases hwG : Configure.write ⟨M, path, setFS fsx path g⟩ s k x true with
          | ok pr₂ =>
            rw [hwF, hwG] at hv
            exact absurd hv (by simp [writeView])
          | exited n₂ fsy₂ =>
            rw [hwF, hwG] at hv
            simp only [writeView] at hv
            injection hv with h1
            simp [readView, h1]
          | raised e₂ fsy₂ =>
            rw [hwF, hwG] at hv
            exact absurd hv (by simp [writeView])
        | raised e fsy =>
          cases hwG : Configure.write ⟨M, path, setFS fsx path g⟩ s k x true with
          | ok pr₂ =>
            rw [hwF, hwG] at hv
            exact absurd hv (by simp [writeView])
          | exited n₂ fsy₂ =>
            rw [hwF, hwG] at hv
            exact absurd hv (by simp [writeView])
          | raised e₂ fsy₂ =>
            rw [hwF, hwG] at hv
            simp only [writeView] at hv
            injection hv with h1
            simp [readView, h1]

/-- C10: the text encoding given at construction is used only for the
initial load.  Part 1: construction decodes the file at the constructor's
encoding.  Part 2: a subsequent `read` observes the on-disk file only
through its decoding at the fixed `'UTF-8'` (configure.py line 54:
`self._reload()` is called with no arguments at lines 93 and 207): two files
agreeing at `'UTF-8'` — even if they decode differently at the constructor's
encoding — give the same observable outcome (returned value and parser on a
normal return, or the same exit status, or the same escaping exception).
Part 3: the same for `write`, for either `store` flag.  Part 4: a `write`
with `store=true` that succeeds over the one file succeeds over the other
with the same parser content and the same file written at the configuration
path. -/
theorem claim10_encoding_only_at_init :
    (∀ (path encoding : String) (fs : FSMap) (inputs : List String) (f : EncFile),
      fs path = some f →
      Configure.init path encoding fs inputs
        = .ok ⟨mergeStore [] (f encoding), path, fs⟩) ∧
    (∀ (mem : Store) (path : String) (fs : FSMap) (f g : EncFile) (s k : String)
        (dv : Option String) (req : Bool), f "UTF-8" = g "UTF-8" →
      readView (Configure.read ⟨mem, path, setFS fs path f⟩ s k dv req)
        = readView (Configure.read ⟨mem, path, setFS fs path g⟩ s k dv req)) ∧
    (∀ (mem : Store) (path : String) (fs : FSMap) (f g : EncFile) (s k v : String)
        (b : Bool), f "UTF-8" = g "UTF-8" →
      writeView (Configure.write ⟨mem, path, setFS fs path f⟩ s k v b)
        = writeView (Configure.write ⟨mem, path, setFS fs path g⟩ s k v b)) ∧
    (∀ (mem : Store) (path : String) (fs : FSMap) (f g : EncFile) (s k v : String),
      f "UTF-8" = g "UTF-8" →
      ∀ st₁ : CState,
        Configure.write ⟨mem, path, setFS fs path f⟩ s k v true = .ok ((), st₁) →
        ∃ st₂ : CState,
          Configure.write ⟨mem, path, setFS fs path g⟩ s k v true = .ok ((), st₂) ∧
          st₂.mem = st₁.mem ∧ st₂.fs path = st₁.fs path) := by
  refine ⟨?_, ?_, ?_, ?_⟩
  · intro path encoding fs inputs f hf
    unfold Configure.init Configure._reload
    simp only [hf]
  · intro mem path fs f g s k dv req hfg
    have hfF : (⟨mem, path, setFS fs path f⟩ : CState).fs
        (⟨mem, path, setFS fs path f⟩ : CState).path = some f := setFS_same fs path f
    have hfG : (⟨mem, path, setFS fs path g⟩ : CState).fs
        (⟨mem, path, setFS fs path g⟩ : CState).path = some g := setFS_same fs path g
    unfold Configure.read
    by_cases hsk : s = "" ∨ k = ""
    · rw [read_conf_empty hfF hsk dv req, read_conf_empty hfG hsk dv req]
      simp only [hfg]
      exact persistBack_view_indep (mergeStore mem (g "UTF-8")) path fs f g hfg s k none
    · cases hci : configGetInterp (mergeStore mem (g "UTF-8")) s k with
      | error e =>
        have hciF : configGetInterp (mergeStore mem (f "UTF-8")) s k = Except.error e := by
          rw [hfg]
          exact hci
        rw [read_conf_interp_error hfF hsk hciF dv req,
            read_conf_interp_error hfG hsk hci dv req]
        rfl
      | ok r =>
        cases r with
        | some w =>
          have hciF : configGetInterp (mergeStore mem (f "UTF-8")) s k
              = Except.ok (some w) := by
            rw [hfg]
            exact hci
          rw [read_conf_found hfF hsk hciF dv req, read_conf_found hfG hsk hci dv req]
          simp only [hfg]
          exact persistBack_view_indep (mergeStore mem (g "UTF-8")) path fs f g hfg s k
            (some w)
        | none =>
          have hraw : configGet (mergeStore mem (g "UTF-8")) s k = none :=
            configGetInterp_none_raw hci
          have hrawF : configGet (mergeStore mem (f "UTF-8")) s k = none := by
            rw [hfg]
            exact hraw
          rw [read_conf_absent hfF hsk hrawF dv req, read_conf_absent hfG hsk hraw dv req]
          simp only [hfg]
          exact persistBack_view_indep (mergeStore mem (g "UTF-8")) path fs f g hfg s k
            (if req = true ∧ dv = none then none else dv)
  · intro mem path fs f g s k v b hfg
    exact write_view_indep mem path fs f g hfg s k v b
  · intro mem path fs f g s k v hfg st₁ hw
    have hfF : (⟨mem, path, setFS fs path f⟩ : CState).fs
        (⟨mem, path, setFS fs path f⟩ : CState).path = some f := setFS_same fs path f
    have hfG : (⟨mem, path, setFS fs path g⟩ : CState).fs
        (⟨mem, path, setFS fs path g⟩ : CState).path = some g := setFS_same fs path g
    unfold Configure.write at hw
    rw [reloadDefault_some hfF] at hw
    dsimp only at hw
    by_cases hsk : s = "" ∨ k = ""
    · rw [if_pos hsk] at hw
      exact absurd hw (by simp)
    · rw [if_neg hsk] at hw
      by_cases hbs : beforeSetOk v = true
      · rw [if_pos hbs] at hw
        cases hsave : sortStoreI (writeMem (mergeStore mem (f "UTF-8")) s k v) with
        | error e =>
          have hsv : Configure._save ⟨writeMem (mergeStore mem (f "UTF-8")) s k v, path,
              setFS fs path f⟩ = Except.error e := by
            unfold Configure._save
            rw [hsave]
          rw [hsv] at hw
          exact absurd hw (by simp)
        | ok sorted =>
          have hsv : Configure._save ⟨writeMem (mergeStore mem (f "UTF-8")) s k v, path,
              setFS fs path f⟩ = Except.ok ⟨sorted, path,
                setFS (setFS fs path f) path (fun _ => sorted)⟩ := by
            unfold Configure._save
            rw [hsave]
          rw [hsv] at hw
          dsimp only at hw
          have h2 : (((), ⟨sorted, path, setFS (setFS fs path f) path (fun _ => sorted)⟩)
              : Unit × CState) = ((), st₁) := by
            injection hw
          have h3 : (⟨sorted, path, setFS (setFS fs path f) path (fun _ => sorted)⟩
              : CState) = st₁ := congrArg Prod.snd h2
          have hsaveG : sortStoreI (writeMem (mergeStore mem (g "UTF-8")) s k v)
              = Except.ok sorted := by
            rw [← hfg]
            exact hsave
          refine ⟨⟨sorted, path, setFS (setFS fs path g) path (fun _ => sorted)⟩,
            ?_, ?_, ?_⟩
          · unfold Configure.write
            rw [reloadDefault_some hfG]
            dsimp only
            rw [if_neg hsk, if_pos hbs]
            have hsvG : Configure._save ⟨writeMem (mergeStore mem (g "UTF-8")) s k v, path,
                setFS fs path g⟩ = Except.ok ⟨sorted, path,
                  setFS (setFS fs path g) path (fun _ => sorted)⟩ := by
              unfold Configure._save
              rw [hsaveG]
            rw [hsvG]
            rfl
          · rw [← h3]
          · rw [← h3]
            show (setFS (setFS fs path g) path (fun _ => sorted)) path
                = (setFS (setFS fs path f) path (fun _ => sorted)) path
            rw [setFS_same, setFS_same]
      · rw [if_neg hbs] at hw
        exact absurd hw (by simp)

/-- Witness for C10 at concrete inputs: the constructor decodes at its
encoding argument; `read` and `write` behave identically over two files that
agree at `'UTF-8'` but differ at every other encoding, and a successful
saving `write` persists the same store over either file. -/
theorem claim10_witness :
    Configure.init "config.ini" "latin-1" fsIni []
      = .ok ⟨mergeStore [] (fileEmpty "latin-1"), "config.ini", fsIni⟩ ∧
    readView (Configure.read ⟨[], "config.ini",
        setFS (fun _ => none) "config.ini" fileAltEnc⟩ "s" "k" none true)
      = readView (Configure.read ⟨[], "config.ini",
          setFS (fun _ => none) "config.ini" fileEmpty⟩ "s" "k" none true) ∧
    writeView (Configure.write ⟨[], "config.ini",
        setFS (fun _ => none) "config.ini" fileAltEnc⟩ "s" "k" "v" true)
      = writeView (Configure.write ⟨[], "config.ini",
          setFS (fun _ => none) "config.ini" fileEmpty⟩ "s" "k" "v" true) ∧
    (∃ st₂ : CState,
      Configure.write ⟨[], "config.ini",
          setFS (fun _ => none) "config.ini" fileEmpty⟩ "s" "k" "v" true = .ok ((), st₂) ∧
      st₂.mem = [("s", [("k", "v")])] ∧
      st₂.fs "config.ini" = some (fun _ => [("s", [("k", "v")])])) := by
  refine ⟨claim10_encoding_only_at_init.1 "config.ini" "latin-1" fsIni [] fileEmpty rfl,
    claim10_encoding_only_at_init.2.1 [] "config.ini" (fun _ => none) fileAltEnc fileEmpty
      "s" "k" none true rfl,
    claim10_encoding_only_at_init.2.2.1 [] "config.ini" (fun _ => none) fileAltEnc fileEmpty
      "s" "k" "v" true rfl, ?_⟩
  obtain ⟨st₂, hw, hmem, hfsp⟩ :=
    claim10_encoding_only_at_init.2.2.2 [] "config.ini" (fun _ => none) fileAltEnc fileEmpty
      "s" "k" "v" rfl
      ⟨[("s", [("k", "v")])], "config.ini",
        setFS (setFS (fun _ => none) "config.ini" fileAltEnc) "config.ini"
          (fun _ => [("s", [("k", "v")])])⟩ rfl
  exact ⟨st₂, hw, hmem, by rw [hfsp]; rfl⟩
